import Mathlib

/-!
Shallow embedding of the sensors-monitor repository's sensor-classification
pipeline.  The repository holds two near-duplicate implementations:
`pylmsensonrs/sm.py` (namespace `SM` below) and `src/sensors-monitor.py`
(namespace `Script`).  They share almost all logic; where they differ
(chip ordering table, drive-temperature routing, config lookup details)
both variants are embedded, and the shared classifier is parameterized by
an `Impl` record instantiated once per source file.

Modelling conventions:
* Python floats are modelled as exact rationals (`ℚ`); every numeric fact
  settled here is far from any float-rounding boundary.
* Python dicts are modelled as association lists in insertion order (JSON
  objects and configparser sections preserve insertion order and have
  pairwise distinct keys; key distinctness appears as `Nodup` hypotheses
  where a claim needs it).
* `sys.maxsize` is `2 ^ 63 - 1`.
* Exceptions are modelled with `Except Unit`.  The only code paths inside
  the embedded core that can raise are the typed configuration getters:
  configparser's `getint` / `getfloat` / `getboolean` raise `ValueError`
  on a stored value that does not parse.
-/

namespace SensorsMonitor

/-- `p.startswith(s)` on Python strings, via the character list. -/
def strStarts (p s : String) : Bool := p.data.isPrefixOf s.data

/-- `s.endswith(p)` on Python strings, via the character list. -/
def strEnds (p s : String) : Bool := p.data.isSuffixOf s.data

/-- Python's `s.split(sep)` for a single-character separator, on character
lists.  Mirrors CPython: splitting the empty string yields `[[]]` (i.e.
`[""]`), not `[]`. -/
def pySplitChars (sep : Char) : List Char → List (List Char)
  | [] => [[]]
  | c :: rest =>
    let r := pySplitChars sep rest
    if c = sep then [] :: r
    else
      match r with
      | [] => [[c]]
      | h :: t => (c :: h) :: t

/-- Python's `s.split(",")`, producing strings. -/
def pySplitStr (s : String) : List String :=
  (pySplitChars ',' s.data).map fun l => ⟨l⟩

/-- Python's `s.lower()` (ASCII case folding, which is all the boolean
parser needs). -/
def pyLower (s : String) : String := ⟨s.data.map Char.toLower⟩

/-- Leading/trailing-whitespace strip, as `int()` / `float()` perform
before parsing. -/
def pyStrip (cs : List Char) : List Char :=
  ((cs.dropWhile Char.isWhitespace).reverse.dropWhile Char.isWhitespace).reverse

/-- Value of a nonempty all-digit character run, `none` otherwise. -/
def digitsVal? (cs : List Char) : Option ℕ :=
  if cs.isEmpty then none
  else if cs.all Char.isDigit then
    some (cs.foldl (fun n c => 10 * n + (c.toNat - 48)) 0)
  else none

/-- Python's `int(s)` on the strings configparser stores: optional
surrounding whitespace, optional sign, decimal digits.  (Digit-group
underscores and non-decimal bases are not modelled; no claim touches
them.) -/
def pyParseInt (s : String) : Option ℤ :=
  match pyStrip s.data with
  | '+' :: rest => (digitsVal? rest).map Int.ofNat
  | '-' :: rest => (digitsVal? rest).map fun n => -(n : ℤ)
  | cs => (digitsVal? cs).map Int.ofNat

/-- Python's `float(s)` restricted to plain decimal forms
(`[sign]digits[.digits]`, `.5`, `5.`); exponents, `inf` and `nan` are not
modelled — no claim touches them. -/
def pyParseFloatBody (cs : List Char) : Option ℚ :=
  match pySplitChars '.' cs with
  | [a] => (digitsVal? a).map fun n => (n : ℚ)
  | [a, b] =>
    if a.isEmpty && b.isEmpty then none
    else if a.all Char.isDigit && b.all Char.isDigit then
      some ((a.foldl (fun n c => 10 * n + (c.toNat - 48)) 0 : ℕ)
        + (b.foldl (fun n c => 10 * n + (c.toNat - 48)) 0 : ℕ) / (10 ^ b.length : ℚ))
    else none
  | _ => none

/-- Python's `float(s)` (see `pyParseFloatBody`). -/
def pyParseFloat (s : String) : Option ℚ :=
  match pyStrip s.data with
  | '+' :: rest => pyParseFloatBody rest
  | '-' :: rest => (pyParseFloatBody rest).map fun q => -q
  | cs => pyParseFloatBody cs

/-- configparser's boolean states: `1/yes/true/on` and `0/no/false/off`,
case-insensitively; anything else fails to parse. -/
def pyParseBool (s : String) : Option Bool :=
  let t := pyLower s
  if t = "1" || t = "yes" || t = "true" || t = "on" then some true
  else if t = "0" || t = "no" || t = "false" || t = "off" then some false
  else none

/-- The configuration store: a section-per-chip key/value store, exactly
what `configparser` holds after `load_config` (section name ↦ option key ↦
stored string). -/
abbrev Config := List (String × List (String × String))

/-- Stored value of `key` in section `sec`, if both exist. -/
def lookupKey (cfg : Config) (sec key : String) : Option String :=
  match List.lookup sec cfg with
  | some kvs => List.lookup key kvs
  | none => none

/-- The severity tier encoded by the style of the `Text` the coloring
functions return: `bold red` ↦ `critical`, `yellow` ↦ `warning`, `green` ↦
`normal`, the empty text ↦ `noDisplay`. -/
inductive Tier
  | noDisplay
  | normal
  | warning
  | critical
deriving DecidableEq, Repr

/-- `get_colored_temp` from both files (identical there): absent value
gives the empty text; an absent `high` is replaced by `sys.maxsize`;
then `temp >= high * .8` is critical, `temp >= high * .6` warning, else
normal. -/
def get_colored_temp (temp high : Option ℚ) : Tier :=
  match temp with
  | none => Tier.noDisplay
  | some t =>
    let h : ℚ := match high with
      | none => (2 : ℚ) ^ 63 - 1
      | some x => x
    if t ≥ h * (8 / 10) then Tier.critical
    else if t ≥ h * (6 / 10) then Tier.warning
    else Tier.normal

/-- `get_colored_voltage` from both files (identical there): absent value
gives the empty text; absent `min` becomes `-sys.maxsize - 1`, absent
`max` becomes `sys.maxsize`; below min is warning, above max critical,
else normal. -/
def get_colored_voltage (voltage min_voltage max_voltage : Option ℚ) : Tier :=
  match voltage with
  | none => Tier.noDisplay
  | some v =>
    let lo : ℚ := match min_voltage with
      | none => -((2 : ℚ) ^ 63)
      | some x => x
    let hi : ℚ := match max_voltage with
      | none => (2 : ℚ) ^ 63 - 1
      | some x => x
    if v < lo then Tier.warning
    else if v > hi then Tier.critical
    else Tier.normal

/-- The `value_type` argument of `get_config_value` (`str` / `int` /
`float` / `bool`; `other` stands for any further Python type, which the
function's `if` chain ignores and so falls through to the default). -/
inductive VType
  | str
  | int
  | float
  | bool
  | other
deriving DecidableEq, Repr

/-- A typed Python value as returned by `get_config_value`. -/
inductive PyVal
  | s : String → PyVal
  | i : ℤ → PyVal
  | f : ℚ → PyVal
  | b : Bool → PyVal
deriving DecidableEq, Repr

instance {ε α : Type} [DecidableEq ε] [DecidableEq α] : DecidableEq (Except ε α)
  | .error e, .error f =>
    if h : e = f then .isTrue (by rw [h]) else .isFalse (fun hc => h (by injection hc))
  | .error _, .ok _ => .isFalse (fun hc => Except.noConfusion hc)
  | .ok _, .error _ => .isFalse (fun hc => Except.noConfusion hc)
  | .ok a, .ok b =>
    if h : a = b then .isTrue (by rw [h]) else .isFalse (fun hc => h (by injection hc))

/-- `get_config_value` from `pylmsensonrs/sm.py`: when `section` and `key`
are truthy (nonempty) and both exist in the store, dispatch on the
expected type — `str` returns the stored string, while `getint` /
`getfloat` / `getboolean` parse it and raise `ValueError` (modelled as
`Except.error ()`) when it does not parse; any other expected type, or a
missing section/key, falls through to the caller-supplied default. -/
def get_config_value (cfg : Config) (sec key : String) (t : VType)
    (dflt : Option PyVal) : Except Unit (Option PyVal) :=
  if sec ≠ "" ∧ key ≠ "" then
    match lookupKey cfg sec key with
    | some v =>
      match t with
      | .str => .ok (some (.s v))
      | .int =>
        match pyParseInt v with
        | some n => .ok (some (.i n))
        | none => .error ()
      | .float =>
        match pyParseFloat v with
        | some q => .ok (some (.f q))
        | none => .error ()
      | .bool =>
        match pyParseBool v with
        | some b => .ok (some (.b b))
        | none => .error ()
      | .other => .ok dflt
    | none => .ok dflt
  else .ok dflt

/-- `load_config`: the configuration file is read once at startup; when
the file is absent (or empty) the parser stays empty, so every lookup
falls back to its default.  The file-system read itself is abstracted:
the argument is the parsed content when the file exists. -/
def load_config (fileContents : Option Config) : Config :=
  fileContents.getD []

/-- The `str`-typed instance of `get_config_value`, returning the stored
string when the nonempty section and key exist and the default
otherwise.  This is the path taken by every label/visibility helper in
`sm.py`; `getConfigStr_spec` below ties it to `get_config_value`. -/
def getConfigStr (cfg : Config) (sec key dflt : String) : String :=
  if sec ≠ "" ∧ key ≠ "" then
    match lookupKey cfg sec key with
    | some v => v
    | none => dflt
  else dflt

/-- The `bool`-typed instance of `get_config_value` used by `sm.py`'s
`is_chip_visible`: parse failure raises. -/
def getConfigBoolE (cfg : Config) (sec key : String) (dflt : Bool) :
    Except Unit Bool :=
  if sec ≠ "" ∧ key ≠ "" then
    match lookupKey cfg sec key with
    | some v =>
      match pyParseBool v with
      | some b => .ok b
      | none => .error ()
    | none => .ok dflt
  else .ok dflt

namespace SM

/-- `chip_sort_order` from `pylmsensonrs/sm.py`: the anchored patterns
`^coretemp-.*`, `^drivetemp-.*`, `^acpitz-.*` (prefix matches) with ranks
1, 2, 3, in that priority order.  There is no NVMe rule in this file. -/
def chip_sort_order : List (String × ℕ) :=
  [("coretemp-", 1), ("drivetemp-", 2), ("acpitz-", 3)]

end SM

namespace Script

/-- `chip_sort_order` from `src/sensors-monitor.py`: `^coretemp-.*`,
`^drivetemp-.*`, `^nvme-.*`, `^acpitz-.*` with ranks 1–4, in that
priority order. -/
def chip_sort_order : List (String × ℕ) :=
  [("coretemp-", 1), ("drivetemp-", 2), ("nvme-", 3), ("acpitz-", 4)]

end Script

/-- The shared body of `get_chip_order`: walk the rule table in order and
return the rank of the first rule whose (anchored, prefix) pattern
matches; with no match return `sys.maxsize - 1 = 2 ^ 63 - 2`. -/
def firstMatchRank (rules : List (String × ℕ)) (chip : String) : ℕ :=
  match rules with
  | [] => 2 ^ 63 - 2
  | (p, r) :: rest => if strStarts p chip then r else firstMatchRank rest chip

/-- `get_chip_order` from `pylmsensonrs/sm.py`. -/
def SM.get_chip_order (chip : String) : ℕ := firstMatchRank SM.chip_sort_order chip

/-- `get_chip_order` from `src/sensors-monitor.py`. -/
def Script.get_chip_order (chip : String) : ℕ := firstMatchRank Script.chip_sort_order chip

/-- `get_custom_sensor_label` from `sm.py`:
`get_config_value(chip_id, sensor_id, str, sensor_id)`. -/
def SM.get_custom_sensor_label (cfg : Config) (chip sid : String) : String :=
  getConfigStr cfg chip sid sid

/-- `get_custom_chip_label` from `sm.py`:
`get_config_value(chip_id, "label", str, chip_id)`. -/
def SM.get_custom_chip_label (cfg : Config) (chip : String) : String :=
  getConfigStr cfg chip "label" chip

/-- `is_chip_visible` from `sm.py`:
`get_config_value(chip_id, "visible", bool, True)`. -/
def SM.is_chip_visible (cfg : Config) (chip : String) : Except Unit Bool :=
  getConfigBoolE cfg chip "visible" true

/-- `is_sensoer_visible` from `sm.py` (the source spells the option key
`hidden_sensoers`): split the configured value — defaulting to the empty
string — on commas and report hidden iff the sensor id occurs in the
resulting list.  Note Python's `"".split(",") == [""]`. -/
def SM.is_sensoer_visible (cfg : Config) (chip sid : String) : Bool :=
  let hidden := pySplitStr (getConfigStr cfg chip "hidden_sensoers" "")
  if sid ∈ hidden then false else true

/-- `get_custom_sensor_label` from `sensors-monitor.py` (inline lookup). -/
def Script.get_custom_sensor_label (cfg : Config) (chip sid : String) : String :=
  match lookupKey cfg chip sid with
  | some v => v
  | none => sid

/-- `get_custom_chip_label` from `sensors-monitor.py` (inline lookup). -/
def Script.get_custom_chip_label (cfg : Config) (chip : String) : String :=
  match lookupKey cfg chip "label" with
  | some v => v
  | none => chip

/-- `is_chip_visible` from `sensors-monitor.py`: `getboolean` when the
section and key exist (raising on an unparseable value), else `True`. -/
def Script.is_chip_visible (cfg : Config) (chip : String) : Except Unit Bool :=
  match lookupKey cfg chip "visible" with
  | some v =>
    match pyParseBool v with
    | some b => .ok b
    | none => .error ()
  | none => .ok true

/-- `is_sensoer_visible` from `sensors-monitor.py`: only when the
`hidden_sensoers` key is present is its value split and consulted. -/
def Script.is_sensoer_visible (cfg : Config) (chip sid : String) : Bool :=
  match lookupKey cfg chip "hidden_sensoers" with
  | some v => if sid ∈ pySplitStr v then false else true
  | none => true

/-- The handful of functions on which the two source files differ.  The
classifier below is written once over this record; `SMimpl` and
`ScriptImpl` instantiate it with each file's own definitions. -/
structure Impl where
  chipVisible : Config → String → Except Unit Bool
  sensorVisible : Config → String → String → Bool
  chipLabel : Config → String → String
  sensorLabel : Config → String → String → String
  route : String → Bool
  chipOrder : String → ℕ

/-- `pylmsensonrs/sm.py`: drive routing is
`chip_id.startswith("drivetemp") or chip_id.startswith("nvme")`. -/
def SMimpl : Impl :=
  { chipVisible := SM.is_chip_visible
    sensorVisible := SM.is_sensoer_visible
    chipLabel := SM.get_custom_chip_label
    sensorLabel := SM.get_custom_sensor_label
    route := fun chip => strStarts "drivetemp" chip || strStarts "nvme" chip
    chipOrder := SM.get_chip_order }

/-- `src/sensors-monitor.py`: drive routing is
`chip_id.startswith("drivetemp")` only. -/
def ScriptImpl : Impl :=
  { chipVisible := Script.is_chip_visible
    sensorVisible := Script.is_sensoer_visible
    chipLabel := Script.get_custom_chip_label
    sensorLabel := Script.get_custom_sensor_label
    route := fun chip => strStarts "drivetemp" chip
    chipOrder := Script.get_chip_order }

/-- One entry of a chip's mapping in the raw tree: either a field-group
(a mapping of raw field names to numeric values) or a non-mapping
metadata value such as the `Adapter` string. -/
inductive GroupEntry
  | fields : List (String × ℚ) → GroupEntry
  | str : String → GroupEntry
deriving DecidableEq, Repr

/-- The raw tree produced by `sensors -j`: chip id ↦ (field-group id or
metadata key) ↦ entry, in document order. -/
abbrev RawTree := List (String × List (String × GroupEntry))

/-- The `Temp` record.  The Python base class `Sensoer` is flattened into
each record type; its constructor fills the label and order fields from
the configuration and ordering policy, and the value fields start absent. -/
structure Temp where
  chip_id : String
  sensor_id : String
  default_chip_label : Option String
  chip_label : String
  sensor_label : String
  chip_order : ℕ
  value : Option ℚ
  high : Option ℚ
  critical : Option ℚ
deriving DecidableEq, Repr

/-- The `HddTemp` record (`Temp` plus historical extrema), flattened. -/
structure HddTemp where
  chip_id : String
  sensor_id : String
  default_chip_label : Option String
  chip_label : String
  sensor_label : String
  chip_order : ℕ
  value : Option ℚ
  high : Option ℚ
  critical : Option ℚ
  lowest : Option ℚ
  highest : Option ℚ
deriving DecidableEq, Repr

/-- The `Voltage` record, flattened. -/
structure Voltage where
  chip_id : String
  sensor_id : String
  default_chip_label : Option String
  chip_label : String
  sensor_label : String
  chip_order : ℕ
  value : Option ℚ
  min : Option ℚ
  max : Option ℚ
deriving DecidableEq, Repr

/-- The `FanSpeed` record, flattened. -/
structure FanSpeed where
  chip_id : String
  sensor_id : String
  default_chip_label : Option String
  chip_label : String
  sensor_label : String
  chip_order : ℕ
  value : Option ℚ
  min : Option ℚ
deriving DecidableEq, Repr

/-- `Temp(chip_id, sensor_id, adapter)`: the freshly constructed record. -/
def Temp.init (I : Impl) (cfg : Config) (chip gid : String)
    (adapter : Option String) : Temp :=
  { chip_id := chip
    sensor_id := gid
    default_chip_label := adapter
    chip_label := I.chipLabel cfg chip
    sensor_label := I.sensorLabel cfg chip gid
    chip_order := I.chipOrder chip
    value := none
    high := none
    critical := none }

/-- `HddTemp(chip_id, sensor_id, adapter)`. -/
def HddTemp.init (I : Impl) (cfg : Config) (chip gid : String)
    (adapter : Option String) : HddTemp :=
  { chip_id := chip
    sensor_id := gid
    default_chip_label := adapter
    chip_label := I.chipLabel cfg chip
    sensor_label := I.sensorLabel cfg chip gid
    chip_order := I.chipOrder chip
    value := none
    high := none
    critical := none
    lowest := none
    highest := none }

/-- `Voltage(chip_id, sensor_id, adapter)`. -/
def Voltage.init (I : Impl) (cfg : Config) (chip gid : String)
    (adapter : Option String) : Voltage :=
  { chip_id := chip
    sensor_id := gid
    default_chip_label := adapter
    chip_label := I.chipLabel cfg chip
    sensor_label := I.sensorLabel cfg chip gid
    chip_order := I.chipOrder chip
    value := none
    min := none
    max := none }

/-- `FanSpeed(chip_id, sensor_id, adapter)`. -/
def FanSpeed.init (I : Impl) (cfg : Config) (chip gid : String)
    (adapter : Option String) : FanSpeed :=
  { chip_id := chip
    sensor_id := gid
    default_chip_label := adapter
    chip_label := I.chipLabel cfg chip
    sensor_label := I.sensorLabel cfg chip gid
    chip_order := I.chipOrder chip
    value := none
    min := none }

/-- The four per-field-group dicts of the inner loop of
`parse_sensors_json` (`temps`, `hdd_temps`, `volts`, `fans`).  Each dict
is only ever keyed by the one enclosing `sensor_id`, so it is an
`Option`. -/
structure GroupAcc where
  temps : Option Temp
  hdd_temps : Option HddTemp
  volts : Option Voltage
  fans : Option FanSpeed
deriving DecidableEq, Repr

/-- Which assignment (if any) the `if`/`elif` chain in the body of
`for name, value in sensoer_values.items()` performs for a raw field
name, given the owning chip's drive/NVMe routing flag.  This is a direct
transcription of the chain's tests; `stepField` below maps each slot to
its assignment. -/
inductive Slot
  | hddValue | hddHigh | hddCrit | hddLowest | hddHighest
  | tValue | tHigh | tCrit
  | fValue | fMin
  | vValue | vMin | vMax
  | skip
deriving DecidableEq, Repr

/-- The `if`/`elif` tests of the field loop, in source order. -/
def slotOf (route : Bool) (n : String) : Slot :=
  if strStarts "temp" n then
    if route then
      if strEnds "_input" n then .hddValue
      else if strEnds "_max" n then .hddHigh
      else if strEnds "_crit" n then .hddCrit
      else if strEnds "_lowest" n then .hddLowest
      else if strEnds "_highest" n then .hddHighest
      else .skip
    else
      if strEnds "_input" n then .tValue
      else if strEnds "_max" n then .tHigh
      else if strEnds "_crit" n then .tCrit
      else .skip
  else if strStarts "fan" n then
    if strEnds "_input" n then .fValue
    else if strEnds "_min" n then .fMin
    else .skip
  else if strStarts "in" n then
    if strEnds "_input" n then .vValue
    else if strEnds "_min" n then .vMin
    else if strEnds "_max" n then .vMax
    else .skip
  else .skip

/-- The body of `for name, value in sensoer_values.items()`: route a raw
field by `slotOf`, creating the category record on first use
(`dict.setdefault`) and assigning the matching field. -/
def stepField (I : Impl) (cfg : Config) (chip gid : String)
    (adapter : Option String) (acc : GroupAcc) (nv : String × ℚ) : GroupAcc :=
  let v := nv.2
  match slotOf (I.route chip) nv.1 with
  | .hddValue =>
    { acc with hdd_temps := some { acc.hdd_temps.getD (HddTemp.init I cfg chip gid adapter) with value := some v } }
  | .hddHigh =>
    { acc with hdd_temps := some { acc.hdd_temps.getD (HddTemp.init I cfg chip gid adapter) with high := some v } }
  | .hddCrit =>
    { acc with hdd_temps := some { acc.hdd_temps.getD (HddTemp.init I cfg chip gid adapter) with critical := some v } }
  | .hddLowest =>
    { acc with hdd_temps := some { acc.hdd_temps.getD (HddTemp.init I cfg chip gid adapter) with lowest := some v } }
  | .hddHighest =>
    { acc with hdd_temps := some { acc.hdd_temps.getD (HddTemp.init I cfg chip gid adapter) with highest := some v } }
  | .tValue =>
    { acc with temps := some { acc.temps.getD (Temp.init I cfg chip gid adapter) with value := some v } }
  | .tHigh =>
    { acc with temps := some { acc.temps.getD (Temp.init I cfg chip gid adapter) with high := some v } }
  | .tCrit =>
    { acc with temps := some { acc.temps.getD (Temp.init I cfg chip gid adapter) with critical := some v } }
  | .fValue =>
    { acc with fans := some { acc.fans.getD (FanSpeed.init I cfg chip gid adapter) with value := some v } }
  | .fMin =>
    { acc with fans := some { acc.fans.getD (FanSpeed.init I cfg chip gid adapter) with min := some v } }
  | .vValue =>
    { acc with volts := some { acc.volts.getD (Voltage.init I cfg chip gid adapter) with value := some v } }
  | .vMin =>
    { acc with volts := some { acc.volts.getD (Voltage.init I cfg chip gid adapter) with min := some v } }
  | .vMax =>
    { acc with volts := some { acc.volts.getD (Voltage.init I cfg chip gid adapter) with max := some v } }
  | .skip => acc

/-- The full field loop for one visible field-group. -/
def classifyGroup (I : Impl) (cfg : Config) (chip gid : String)
    (adapter : Option String) (fs : List (String × ℚ)) : GroupAcc :=
  fs.foldl (stepField I cfg chip gid adapter) ⟨none, none, none, none⟩

/-- Raw-field recognition for the generic temperature category, as the
route taken by `stepField`: a `temp*` name on a non-drive chip with one
of the `_input` / `_max` / `_crit` suffixes. -/
def tempRecogN (route : Bool) (n : String) : Bool :=
  strStarts "temp" n && !route &&
    (strEnds "_input" n || strEnds "_max" n || strEnds "_crit" n)

/-- Raw-field recognition for the drive-temperature category: a `temp*`
name on a drive/NVMe-routed chip with one of the five drive suffixes. -/
def hddRecogN (route : Bool) (n : String) : Bool :=
  strStarts "temp" n && route &&
    (strEnds "_input" n || strEnds "_max" n || strEnds "_crit" n ||
      strEnds "_lowest" n || strEnds "_highest" n)

/-- Raw-field recognition for the fan category (`elif` guard included). -/
def fanRecogN (n : String) : Bool :=
  !strStarts "temp" n && strStarts "fan" n &&
    (strEnds "_input" n || strEnds "_min" n)

/-- Raw-field recognition for the voltage category (`elif` guards
included). -/
def inRecogN (n : String) : Bool :=
  !strStarts "temp" n && !strStarts "fan" n && strStarts "in" n &&
    (strEnds "_input" n || strEnds "_min" n || strEnds "_max" n)

/-- A raw field name is recognized iff some category's routing accepts it
on a chip with the given drive-routing flag. -/
def recognizedName (route : Bool) (n : String) : Bool :=
  tempRecogN route n || hddRecogN route n || fanRecogN n || inRecogN n

/-- One iteration of `for sensor_id, sensoer_values in chip_data.items()`:
skip non-mapping entries and hidden sensors, otherwise run the field
loop. -/
def groupRecords (I : Impl) (cfg : Config) (chip : String)
    (adapter : Option String) (g : String × GroupEntry) : GroupAcc :=
  match g.2 with
  | .str _ => ⟨none, none, none, none⟩
  | .fields fs =>
    if I.sensorVisible cfg chip g.1 then classifyGroup I cfg chip g.1 adapter fs
    else ⟨none, none, none, none⟩

/-- `str(x)` of a chip-level entry, used only for the adapter string.  A
mapping-valued adapter never occurs in `sensors -j` output; its Python
`repr` is abstracted to the empty string. -/
def pyEntryStr : GroupEntry → String
  | .str s => s
  | .fields _ => ""

/-- Adapter extraction: `chip_data[ADAPTER_PROP]` when the key exists. -/
def adapterOf (cdata : List (String × GroupEntry)) : Option String :=
  (List.lookup "Adapter" cdata).map pyEntryStr

/-- The four accumulating sequences of `SensorsData` before the final
sort. -/
structure Lists4 where
  temps : List Temp
  hdd_temps : List HddTemp
  volts : List Voltage
  fans : List FanSpeed
deriving DecidableEq, Repr

def emptyLists : Lists4 := ⟨[], [], [], []⟩

def appendLists (a b : Lists4) : Lists4 :=
  ⟨a.temps ++ b.temps, a.hdd_temps ++ b.hdd_temps, a.volts ++ b.volts, a.fans ++ b.fans⟩

/-- The records one visible chip contributes, with the adapter value
fixed: each field-group adds its (at most one) record per category, in
group order — `output.temps.extend([*temps.values()])` etc. -/
def chipLists (I : Impl) (cfg : Config) (chip : String)
    (adapter : Option String) (cdata : List (String × GroupEntry)) : Lists4 :=
  { temps := cdata.filterMap fun g => (groupRecords I cfg chip adapter g).temps
    hdd_temps := cdata.filterMap fun g => (groupRecords I cfg chip adapter g).hdd_temps
    volts := cdata.filterMap fun g => (groupRecords I cfg chip adapter g).volts
    fans := cdata.filterMap fun g => (groupRecords I cfg chip adapter g).fans }

/-- One iteration of the chip loop body (after the visibility check):
extract the adapter, then scan the chip's field-groups. -/
def classifyChip (I : Impl) (cfg : Config) (chip : String)
    (cdata : List (String × GroupEntry)) : Lists4 :=
  chipLists I cfg chip (adapterOf cdata) cdata

/-- The chip loop of `parse_sensors_json`: invisible chips are skipped;
`is_chip_visible` can raise (a stored `visible` value that `getboolean`
rejects), which aborts the whole parse. -/
def classifyChips (I : Impl) (cfg : Config) : RawTree → Except Unit Lists4
  | [] => .ok emptyLists
  | (chip, cdata) :: rest =>
    match I.chipVisible cfg chip with
    | .error e => .error e
    | .ok vis =>
      match classifyChips I cfg rest with
      | .error e => .error e
      | .ok tail =>
        .ok (appendLists (if vis then classifyChip I cfg chip cdata else emptyLists) tail)

/-- Stable insertion of `x` into `l` by sort key: `x` goes in front of
the first element whose key is ≥ its own. -/
def insertByKey {α : Type} (key : α → ℕ) (x : α) : List α → List α
  | [] => [x]
  | y :: ys => if key x ≤ key y then x :: y :: ys else y :: insertByKey key x ys

/-- Stable sort by key.  Python's `sorted` is documented stable; a stable
sort by key is unique as a function, so this insertion sort is
extensionally the `sorted(..., key=lambda item: item.chip_order)` calls
of the source (stability and sortedness are proved below). -/
def sortByKey {α : Type} (key : α → ℕ) (l : List α) : List α :=
  l.foldr (insertByKey key) []

/-- The snapshot `SensorsData`: the four sequences plus the untouched raw
tree. -/
structure SensorsData where
  volts : List Voltage
  temps : List Temp
  hdd_temps : List HddTemp
  fans : List FanSpeed
  raw_data : RawTree
deriving DecidableEq, Repr

/-- `parse_sensors_json`: classify every visible chip, then sort each of
the four sequences by `chip_order` with a stable sort. -/
def parse_sensors_json (I : Impl) (cfg : Config) (tree : RawTree) :
    Except Unit SensorsData :=
  match classifyChips I cfg tree with
  | .error e => .error e
  | .ok L =>
    .ok { volts := sortByKey Voltage.chip_order L.volts
          temps := sortByKey Temp.chip_order L.temps
          hdd_temps := sortByKey HddTemp.chip_order L.hdd_temps
          fans := sortByKey FanSpeed.chip_order L.fans
          raw_data := tree }

/-- Whether a chip's visibility lookup succeeded with `True`. -/
def chipVisOk (I : Impl) (cfg : Config) (chip : String) : Bool :=
  match I.chipVisible cfg chip with
  | .ok true => true
  | _ => false

/-- Whether a field-group entry contributes a record to a category whose
field recognizer is `recog`: it must be a mapping, be visible, and hold
at least one recognized field name. -/
def groupContrib (I : Impl) (cfg : Config) (chip : String)
    (recog : Bool → String → Bool) (g : String × GroupEntry) : Bool :=
  match g.2 with
  | .str _ => false
  | .fields fs =>
    I.sensorVisible cfg chip g.1 && fs.any fun p => recog (I.route chip) p.1

/-- The `(chip_id, sensor_id)` pairs of the visible field-groups that
contribute at least one recognized field to the category recognized by
`recog`, in discovery order. -/
def contributingPairs (I : Impl) (cfg : Config) (recog : Bool → String → Bool)
    (tree : RawTree) : List (String × String) :=
  (tree.filter fun c => chipVisOk I cfg c.1).flatMap fun c =>
    (c.2.filter (groupContrib I cfg c.1 recog)).map fun g => (c.1, g.1)

section SortLemmas

variable {α : Type} (key : α → ℕ)

theorem insertByKey_perm (x : α) (l : List α) :
    (insertByKey key x l).Perm (x :: l) := by
  induction l with
  | nil => simp [insertByKey]
  | cons y ys ih =>
    simp only [insertByKey]
    split
    · exact List.Perm.refl _
    · exact (List.Perm.cons y ih).trans (List.Perm.swap x y ys)

theorem sortByKey_perm (l : List α) : (sortByKey key l).Perm l := by
  induction l with
  | nil => simp [sortByKey]
  | cons x xs ih =>
    simp only [sortByKey, List.foldr_cons]
    exact (insertByKey_perm key x _).trans (List.Perm.cons x ih)

theorem mem_insertByKey {x y : α} {l : List α} :
    y ∈ insertByKey key x l ↔ y = x ∨ y ∈ l := by
  constructor
  · intro h
    have := (insertByKey_perm key x l).mem_iff.mp h
    simpa using this
  · intro h
    exact (insertByKey_perm key x l).mem_iff.mpr (by simpa using h)

theorem pairwise_insertByKey (x : α) (l : List α)
    (h : l.Pairwise fun a b => key a ≤ key b) :
    (insertByKey key x l).Pairwise fun a b => key a ≤ key b := by
  induction l with
  | nil => simp [insertByKey]
  | cons y ys ih =>
    simp only [insertByKey]
    rcases List.pairwise_cons.mp h with ⟨hy, hys⟩
    split
    · rename_i hxy
      refine List.pairwise_cons.mpr ⟨?_, h⟩
      intro z hz
      rcases List.mem_cons.mp hz with rfl | hz
      · exact hxy
      · exact le_trans hxy (hy _ hz)
    · rename_i hxy
      refine List.pairwise_cons.mpr ⟨?_, ih hys⟩
      intro z hz
      rcases (mem_insertByKey key).mp hz with rfl | hz
      · exact le_of_not_le hxy
      · exact hy _ hz

theorem sortByKey_pairwise (l : List α) :
    (sortByKey key l).Pairwise fun a b => key a ≤ key b := by
  induction l with
  | nil => simp [sortByKey]
  | cons x xs ih =>
    simp only [sortByKey, List.foldr_cons]
    exact pairwise_insertByKey key x _ ih

theorem filter_insertByKey (x : α) (l : List α) (r : ℕ) :
    (insertByKey key x l).filter (fun a => key a == r) =
      if key x = r then x :: l.filter (fun a => key a == r)
      else l.filter (fun a => key a == r) := by
  induction l with
  | nil =>
    by_cases h : key x = r <;> simp [insertByKey, List.filter_cons, h]
  | cons y ys ih =>
    simp only [insertByKey]
    split
    · by_cases h : key x = r <;> simp [List.filter_cons, h]
    · rename_i hxy
      have hlt : key y < key x := Nat.lt_of_not_le fun hc => hxy hc
      by_cases hy : key y = r
      · have hx : ¬ key x = r := by omega
        simp [List.filter_cons, hy, hx, ih]
      · by_cases hx : key x = r <;> simp [List.filter_cons, hy, hx, ih]

theorem filter_sortByKey (l : List α) (r : ℕ) :
    (sortByKey key l).filter (fun a => key a == r) =
      l.filter (fun a => key a == r) := by
  induction l with
  | nil => simp [sortByKey]
  | cons x xs ih =>
    simp only [sortByKey, List.foldr_cons] at ih ⊢
    rw [filter_insertByKey]
    by_cases h : key x = r <;> simp [List.filter_cons, h, ih]

theorem sortByKey_length (l : List α) : (sortByKey key l).length = l.length :=
  (sortByKey_perm key l).length_eq

end SortLemmas

section StepLemmas

/-- Whether a slot assigns into the generic-temperature record. -/
def Slot.isTemp : Slot → Bool
  | .tValue | .tHigh | .tCrit => true
  | _ => false

/-- Whether a slot assigns into the drive-temperature record. -/
def Slot.isHdd : Slot → Bool
  | .hddValue | .hddHigh | .hddCrit | .hddLowest | .hddHighest => true
  | _ => false

/-- Whether a slot assigns into the voltage record. -/
def Slot.isVolt : Slot → Bool
  | .vValue | .vMin | .vMax => true
  | _ => false

/-- Whether a slot assigns into the fan record. -/
def Slot.isFan : Slot → Bool
  | .fValue | .fMin => true
  | _ => false

theorem slotOf_isTemp (route : Bool) (n : String) :
    (slotOf route n).isTemp = tempRecogN route n := by
  unfold slotOf tempRecogN
  repeat' split
  all_goals simp_all [Slot.isTemp]

theorem slotOf_isHdd (route : Bool) (n : String) :
    (slotOf route n).isHdd = hddRecogN route n := by
  unfold slotOf hddRecogN
  repeat' split
  all_goals simp_all [Slot.isHdd]

theorem slotOf_isVolt (route : Bool) (n : String) :
    (slotOf route n).isVolt = inRecogN n := by
  unfold slotOf inRecogN
  repeat' split
  all_goals simp_all [Slot.isVolt]

theorem slotOf_isFan (route : Bool) (n : String) :
    (slotOf route n).isFan = fanRecogN n := by
  unfold slotOf fanRecogN
  repeat' split
  all_goals simp_all [Slot.isFan]

variable (I : Impl) (cfg : Config) (chip gid : String) (adapter : Option String)

theorem stepField_temps_isSome (acc : GroupAcc) (nv : String × ℚ) :
    ((stepField I cfg chip gid adapter acc nv).temps).isSome =
      (acc.temps.isSome || tempRecogN (I.route chip) nv.1) := by
  rw [← slotOf_isTemp]
  unfold stepField
  cases slotOf (I.route chip) nv.1 <;> simp [Slot.isTemp]

theorem stepField_hdd_isSome (acc : GroupAcc) (nv : String × ℚ) :
    ((stepField I cfg chip gid adapter acc nv).hdd_temps).isSome =
      (acc.hdd_temps.isSome || hddRecogN (I.route chip) nv.1) := by
  rw [← slotOf_isHdd]
  unfold stepField
  cases slotOf (I.route chip) nv.1 <;> simp [Slot.isHdd]

theorem stepField_volts_isSome (acc : GroupAcc) (nv : String × ℚ) :
    ((stepField I cfg chip gid adapter acc nv).volts).isSome =
      (acc.volts.isSome || inRecogN nv.1) := by
  rw [← slotOf_isVolt (I.route chip)]
  unfold stepField
  cases slotOf (I.route chip) nv.1 <;> simp [Slot.isVolt]

theorem stepField_fans_isSome (acc : GroupAcc) (nv : String × ℚ) :
    ((stepField I cfg chip gid adapter acc nv).fans).isSome =
      (acc.fans.isSome || fanRecogN nv.1) := by
  rw [← slotOf_isFan (I.route chip)]
  unfold stepField
  cases slotOf (I.route chip) nv.1 <;> simp [Slot.isFan]

/-- The identity fields of every record held in the accumulator are those
of the enclosing chip and field-group. -/
def accIds (chip gid : String) (acc : GroupAcc) : Prop :=
  (∀ r, acc.temps = some r → r.chip_id = chip ∧ r.sensor_id = gid) ∧
  (∀ r, acc.hdd_temps = some r → r.chip_id = chip ∧ r.sensor_id = gid) ∧
  (∀ r, acc.volts = some r → r.chip_id = chip ∧ r.sensor_id = gid) ∧
  (∀ r, acc.fans = some r → r.chip_id = chip ∧ r.sensor_id = gid)

theorem stepField_accIds (acc : GroupAcc) (nv : String × ℚ)
    (h : accIds chip gid acc) :
    accIds chip gid (stepField I cfg chip gid adapter acc nv) := by
  obtain ⟨tA, hA, vA, fA⟩ := acc
  obtain ⟨h1, h2, h3, h4⟩ := h
  unfold stepField accIds at *
  dsimp only at *
  cases slotOf (I.route chip) nv.1 <;>
    refine ⟨?_, ?_, ?_, ?_⟩ <;> intro r hr <;>
      first
        | exact h1 r hr
        | exact h2 r hr
        | exact h3 r hr
        | exact h4 r hr
        | (dsimp only at hr
           injection hr with hr
           subst hr
           first
             | (cases tA with
                 | none => simp [Temp.init]
                 | some u => simpa using h1 u rfl)
             | (cases hA with
                 | none => simp [HddTemp.init]
                 | some u => simpa using h2 u rfl)
             | (cases vA with
                 | none => simp [Voltage.init]
                 | some u => simpa using h3 u rfl)
             | (cases fA with
                 | none => simp [FanSpeed.init]
                 | some u => simpa using h4 u rfl))

end StepLemmas

/-- The `(chip_id, sensor_id)` identity of a record. -/
def Temp.pair (r : Temp) : String × String := (r.chip_id, r.sensor_id)

/-- The `(chip_id, sensor_id)` identity of a record. -/
def HddTemp.pair (r : HddTemp) : String × String := (r.chip_id, r.sensor_id)

/-- The `(chip_id, sensor_id)` identity of a record. -/
def Voltage.pair (r : Voltage) : String × String := (r.chip_id, r.sensor_id)

/-- The `(chip_id, sensor_id)` identity of a record. -/
def FanSpeed.pair (r : FanSpeed) : String × String := (r.chip_id, r.sensor_id)

section GroupLemmas

variable (I : Impl) (cfg : Config) (chip gid : String) (adapter : Option String)

theorem foldl_temps_isSome (fs : List (String × ℚ)) :
    ∀ acc : GroupAcc,
      ((fs.foldl (stepField I cfg chip gid adapter) acc).temps).isSome =
        (acc.temps.isSome || fs.any fun p => tempRecogN (I.route chip) p.1) := by
  induction fs with
  | nil => intro acc; simp
  | cons p ps ih =>
    intro acc
    simp only [List.foldl_cons, List.any_cons]
    rw [ih, stepField_temps_isSome]
    simp [Bool.or_assoc]

theorem foldl_hdd_isSome (fs : List (String × ℚ)) :
    ∀ acc : GroupAcc,
      ((fs.foldl (stepField I cfg chip gid adapter) acc).hdd_temps).isSome =
        (acc.hdd_temps.isSome || fs.any fun p => hddRecogN (I.route chip) p.1) := by
  induction fs with
  | nil => intro acc; simp
  | cons p ps ih =>
    intro acc
    simp only [List.foldl_cons, List.any_cons]
    rw [ih, stepField_hdd_isSome]
    simp [Bool.or_assoc]

theorem foldl_volts_isSome (fs : List (String × ℚ)) :
    ∀ acc : GroupAcc,
      ((fs.foldl (stepField I cfg chip gid adapter) acc).volts).isSome =
        (acc.volts.isSome || fs.any fun p => inRecogN p.1) := by
  induction fs with
  | nil => intro acc; simp
  | cons p ps ih =>
    intro acc
    simp only [List.foldl_cons, List.any_cons]
    rw [ih, stepField_volts_isSome]
    simp [Bool.or_assoc]

theorem foldl_fans_isSome (fs : List (String × ℚ)) :
    ∀ acc : GroupAcc,
      ((fs.foldl (stepField I cfg chip gid adapter) acc).fans).isSome =
        (acc.fans.isSome || fs.any fun p => fanRecogN p.1) := by
  induction fs with
  | nil => intro acc; simp
  | cons p ps ih =>
    intro acc
    simp only [List.foldl_cons, List.any_cons]
    rw [ih, stepField_fans_isSome]
    simp [Bool.or_assoc]

theorem classifyGroup_temps_isSome (fs : List (String × ℚ)) :
    ((classifyGroup I cfg chip gid adapter fs).temps).isSome =
      fs.any fun p => tempRecogN (I.route chip) p.1 := by
  unfold classifyGroup
  rw [foldl_temps_isSome]
  simp

theorem classifyGroup_hdd_isSome (fs : List (String × ℚ)) :
    ((classifyGroup I cfg chip gid adapter fs).hdd_temps).isSome =
      fs.any fun p => hddRecogN (I.route chip) p.1 := by
  unfold classifyGroup
  rw [foldl_hdd_isSome]
  simp

theorem classifyGroup_volts_isSome (fs : List (String × ℚ)) :
    ((classifyGroup I cfg chip gid adapter fs).volts).isSome =
      fs.any fun p => inRecogN p.1 := by
  unfold classifyGroup
  rw [foldl_volts_isSome]
  simp

theorem classifyGroup_fans_isSome (fs : List (String × ℚ)) :
    ((classifyGroup I cfg chip gid adapter fs).fans).isSome =
      fs.any fun p => fanRecogN p.1 := by
  unfold classifyGroup
  rw [foldl_fans_isSome]
  simp

theorem foldl_accIds (fs : List (String × ℚ)) :
    ∀ acc : GroupAcc, accIds chip gid acc →
      accIds chip gid (fs.foldl (stepField I cfg chip gid adapter) acc) := by
  induction fs with
  | nil => intro acc h; simpa using h
  | cons p ps ih =>
    intro acc h
    simp only [List.foldl_cons]
    exact ih _ (stepField_accIds I cfg chip gid adapter acc p h)

theorem classifyGroup_accIds (fs : List (String × ℚ)) :
    accIds chip gid (classifyGroup I cfg chip gid adapter fs) := by
  unfold classifyGroup
  refine foldl_accIds I cfg chip gid adapter fs _ ?_
  refine ⟨?_, ?_, ?_, ?_⟩ <;> intro r hr <;> cases hr

end GroupLemmas

section ChipLemmas

variable (I : Impl) (cfg : Config) (chip : String) (adapter : Option String)

theorem groupRecords_temps_isSome (g : String × GroupEntry) :
    ((groupRecords I cfg chip adapter g).temps).isSome =
      groupContrib I cfg chip tempRecogN g := by
  rcases g with ⟨gid, e⟩
  cases e with
  | str s => simp [groupRecords, groupContrib]
  | fields fs =>
    simp only [groupRecords, groupContrib]
    by_cases h : I.sensorVisible cfg chip gid = true <;>
      simp [h, classifyGroup_temps_isSome]

theorem groupRecords_hdd_isSome (g : String × GroupEntry) :
    ((groupRecords I cfg chip adapter g).hdd_temps).isSome =
      groupContrib I cfg chip hddRecogN g := by
  rcases g with ⟨gid, e⟩
  cases e with
  | str s => simp [groupRecords, groupContrib]
  | fields fs =>
    simp only [groupRecords, groupContrib]
    by_cases h : I.sensorVisible cfg chip gid = true <;>
      simp [h, classifyGroup_hdd_isSome]

theorem groupRecords_volts_isSome (g : String × GroupEntry) :
    ((groupRecords I cfg chip adapter g).volts).isSome =
      groupContrib I cfg chip (fun _ => inRecogN) g := by
  rcases g with ⟨gid, e⟩
  cases e with
  | str s => simp [groupRecords, groupContrib]
  | fields fs =>
    simp only [groupRecords, groupContrib]
    by_cases h : I.sensorVisible cfg chip gid = true <;>
      simp [h, classifyGroup_volts_isSome]

theorem groupRecords_fans_isSome (g : String × GroupEntry) :
    ((groupRecords I cfg chip adapter g).fans).isSome =
      groupContrib I cfg chip (fun _ => fanRecogN) g := by
  rcases g with ⟨gid, e⟩
  cases e with
  | str s => simp [groupRecords, groupContrib]
  | fields fs =>
    simp only [groupRecords, groupContrib]
    by_cases h : I.sensorVisible cfg chip gid = true <;>
      simp [h, classifyGroup_fans_isSome]

theorem groupRecords_ids (g : String × GroupEntry) :
    (∀ r, (groupRecords I cfg chip adapter g).temps = some r →
      r.chip_id = chip ∧ r.sensor_id = g.1) ∧
    (∀ r, (groupRecords I cfg chip adapter g).hdd_temps = some r →
      r.chip_id = chip ∧ r.sensor_id = g.1) ∧
    (∀ r, (groupRecords I cfg chip adapter g).volts = some r →
      r.chip_id = chip ∧ r.sensor_id = g.1) ∧
    (∀ r, (groupRecords I cfg chip adapter g).fans = some r →
      r.chip_id = chip ∧ r.sensor_id = g.1) := by
  rcases g with ⟨gid, e⟩
  cases e with
  | str s => refine ⟨?_, ?_, ?_, ?_⟩ <;> intro r hr <;> cases hr
  | fields fs =>
    simp only [groupRecords]
    by_cases h : I.sensorVisible cfg chip gid = true
    · simp only [h, if_true]
      exact classifyGroup_accIds I cfg chip gid adapter fs
    · simp only [h, if_false]
      refine ⟨?_, ?_, ?_, ?_⟩ <;> intro r hr <;> cases hr

theorem chipLists_temps_pairs (cdata : List (String × GroupEntry)) :
    (chipLists I cfg chip adapter cdata).temps.map Temp.pair =
      (cdata.filter (groupContrib I cfg chip tempRecogN)).map fun g => (chip, g.1) := by
  induction cdata with
  | nil => simp [chipLists]
  | cons g gs ih =>
    simp only [chipLists, List.filterMap_cons, List.filter_cons] at ih ⊢
    cases hg : (groupRecords I cfg chip adapter g).temps with
    | none =>
      have hc : groupContrib I cfg chip tempRecogN g = false := by
        rw [← groupRecords_temps_isSome I cfg chip adapter, hg]; rfl
      simp [hc, ih]
    | some r =>
      have hc : groupContrib I cfg chip tempRecogN g = true := by
        rw [← groupRecords_temps_isSome I cfg chip adapter, hg]; rfl
      have hid := (groupRecords_ids I cfg chip adapter g).1 r hg
      simp [hc, ih, Temp.pair, hid.1, hid.2]

theorem chipLists_hdd_pairs (cdata : List (String × GroupEntry)) :
    (chipLists I cfg chip adapter cdata).hdd_temps.map HddTemp.pair =
      (cdata.filter (groupContrib I cfg chip hddRecogN)).map fun g => (chip, g.1) := by
  induction cdata with
  | nil => simp [chipLists]
  | cons g gs ih =>
    simp only [chipLists, List.filterMap_cons, List.filter_cons] at ih ⊢
    cases hg : (groupRecords I cfg chip adapter g).hdd_temps with
    | none =>
      have hc : groupContrib I cfg chip hddRecogN g = false := by
        rw [← groupRecords_hdd_isSome I cfg chip adapter, hg]; rfl
      simp [hc, ih]
    | some r =>
      have hc : groupContrib I cfg chip hddRecogN g = true := by
        rw [← groupRecords_hdd_isSome I cfg chip adapter, hg]; rfl
      have hid := (groupRecords_ids I cfg chip adapter g).2.1 r hg
      simp [hc, ih, HddTemp.pair, hid.1, hid.2]

theorem chipLists_volts_pairs (cdata : List (String × GroupEntry)) :
    (chipLists I cfg chip adapter cdata).volts.map Voltage.pair =
      (cdata.filter (groupContrib I cfg chip (fun _ => inRecogN))).map fun g => (chip, g.1) := by
  induction cdata with
  | nil => simp [chipLists]
  | cons g gs ih =>
    simp only [chipLists, List.filterMap_cons, List.filter_cons] at ih ⊢
    cases hg : (groupRecords I cfg chip adapter g).volts with
    | none =>
      have hc : groupContrib I cfg chip (fun _ => inRecogN) g = false := by
        rw [← groupRecords_volts_isSome I cfg chip adapter, hg]; rfl
      simp [hc, ih]
    | some r =>
      have hc : groupContrib I cfg chip (fun _ => inRecogN) g = true := by
        rw [← groupRecords_volts_isSome I cfg chip adapter, hg]; rfl
      have hid := (groupRecords_ids I cfg chip adapter g).2.2.1 r hg
      simp [hc, ih, Voltage.pair, hid.1, hid.2]

theorem chipLists_fans_pairs (cdata : List (String × GroupEntry)) :
    (chipLists I cfg chip adapter cdata).fans.map FanSpeed.pair =
      (cdata.filter (groupContrib I cfg chip (fun _ => fanRecogN))).map fun g => (chip, g.1) := by
  induction cdata with
  | nil => simp [chipLists]
  | cons g gs ih =>
    simp only [chipLists, List.filterMap_cons, List.filter_cons] at ih ⊢
    cases hg : (groupRecords I cfg chip adapter g).fans with
    | none =>
      have hc : groupContrib I cfg chip (fun _ => fanRecogN) g = false := by
        rw [← groupRecords_fans_isSome I cfg chip adapter, hg]; rfl
      simp [hc, ih]
    | some r =>
      have hc : groupContrib I cfg chip (fun _ => fanRecogN) g = true := by
        rw [← groupRecords_fans_isSome I cfg chip adapter, hg]; rfl
      have hid := (groupRecords_ids I cfg chip adapter g).2.2.2 r hg
      simp [hc, ih, FanSpeed.pair, hid.1, hid.2]

end ChipLemmas

section TreeLemmas

variable (I : Impl) (cfg : Config)

theorem chipVisOk_of {chip : String} {b : Bool}
    (h : I.chipVisible cfg chip = .ok b) : chipVisOk I cfg chip = b := by
  unfold chipVisOk
  rw [h]
  cases b <;> rfl

theorem classifyChips_pairs : ∀ (tree : RawTree) (L : Lists4),
    classifyChips I cfg tree = .ok L →
      L.temps.map Temp.pair = contributingPairs I cfg tempRecogN tree ∧
      L.hdd_temps.map HddTemp.pair = contributingPairs I cfg hddRecogN tree ∧
      L.volts.map Voltage.pair = contributingPairs I cfg (fun _ => inRecogN) tree ∧
      L.fans.map FanSpeed.pair = contributingPairs I cfg (fun _ => fanRecogN) tree := by
  intro tree
  induction tree with
  | nil =>
    intro L h
    unfold classifyChips at h
    injection h with h
    subst h
    simp [contributingPairs, emptyLists]
  | cons c rest ih =>
    intro L h
    rcases c with ⟨chip, cdata⟩
    unfold classifyChips at h
    cases hv : I.chipVisible cfg chip with
    | error e => rw [hv] at h; cases h
    | ok vis =>
      rw [hv] at h
      cases hrec : classifyChips I cfg rest with
      | error e => rw [hrec] at h; cases h
      | ok tail =>
        rw [hrec] at h
        injection h with h
        subst h
        have htail := ih tail hrec
        have hvis := chipVisOk_of I cfg hv
        cases vis with
        | true =>
          simp only [if_true, contributingPairs, List.filter_cons, hvis,
            List.flatMap_cons, appendLists, List.map_append, classifyChip] at htail ⊢
          exact ⟨by rw [chipLists_temps_pairs, htail.1],
            by rw [chipLists_hdd_pairs, htail.2.1],
            by rw [chipLists_volts_pairs, htail.2.2.1],
            by rw [chipLists_fans_pairs, htail.2.2.2]⟩
        | false =>
          simp only [if_false, contributingPairs, List.filter_cons, hvis,
            appendLists, emptyLists, List.nil_append] at htail ⊢
          exact htail

theorem mem_contributingPairs_fst (recog : Bool → String → Bool)
    (tree : RawTree) (p : String × String)
    (h : p ∈ contributingPairs I cfg recog tree) : p.1 ∈ tree.map Prod.fst := by
  unfold contributingPairs at h
  rcases List.mem_flatMap.mp h with ⟨c, hc, hp⟩
  rcases List.mem_map.mp hp with ⟨g, _, rfl⟩
  exact List.mem_map.mpr ⟨c, (List.mem_filter.mp hc).1, rfl⟩

theorem contributingPairs_nodup (recog : Bool → String → Bool) :
    ∀ tree : RawTree,
      (tree.map Prod.fst).Nodup →
      (∀ c ∈ tree, (c.2.map Prod.fst).Nodup) →
      (contributingPairs I cfg recog tree).Nodup := by
  intro tree
  induction tree with
  | nil => intro _ _; simp [contributingPairs]
  | cons c rest ih =>
    intro h1 h2
    rcases c with ⟨chip, cdata⟩
    have h1' : (rest.map Prod.fst).Nodup := (List.nodup_cons.mp (by simpa using h1)).2
    have hchip : chip ∉ rest.map Prod.fst := (List.nodup_cons.mp (by simpa using h1)).1
    have h2' : ∀ c ∈ rest, (c.2.map Prod.fst).Nodup := fun c hc => h2 c (List.mem_cons_of_mem _ hc)
    have htail := ih h1' h2'
    unfold contributingPairs
    simp only [List.filter_cons]
    by_cases hv : chipVisOk I cfg chip = true
    · simp only [hv, if_true, List.flatMap_cons]
      rw [List.nodup_append]
      refine ⟨?_, htail, ?_⟩
      · have hsub : ((cdata.filter (groupContrib I cfg chip recog)).map Prod.fst).Sublist
            (cdata.map Prod.fst) := (List.filter_sublist _).map _
        have hnd : ((cdata.filter (groupContrib I cfg chip recog)).map Prod.fst).Nodup :=
          (h2 (chip, cdata) (List.mem_cons_self _ _)).sublist hsub
        have hinj : Function.Injective (fun k : String => (chip, k)) := by
          intro a b hab
          simpa using hab
        have := hnd.map hinj
        simpa [Function.comp, List.map_map] using this
      · intro p hpA hpB
        have hA : p.1 = chip := by
          rcases List.mem_map.mp hpA with ⟨g, _, rfl⟩
          rfl
        have hB : p.1 ∈ rest.map Prod.fst :=
          mem_contributingPairs_fst I cfg recog rest p hpB
        rw [hA] at hB
        exact hchip hB
    · simp only [hv, if_false]
      exact htail

theorem parse_ok_elim (tree : RawTree) (out : SensorsData)
    (h : parse_sensors_json I cfg tree = .ok out) :
    ∃ L, classifyChips I cfg tree = .ok L ∧
      out.temps = sortByKey Temp.chip_order L.temps ∧
      out.hdd_temps = sortByKey HddTemp.chip_order L.hdd_temps ∧
      out.volts = sortByKey Voltage.chip_order L.volts ∧
      out.fans = sortByKey FanSpeed.chip_order L.fans ∧
      out.raw_data = tree := by
  unfold parse_sensors_json at h
  cases hc : classifyChips I cfg tree with
  | error e => rw [hc] at h; cases h
  | ok L =>
    rw [hc] at h
    injection h with h
    subst h
    exact ⟨L, rfl, rfl, rfl, rfl, rfl, rfl⟩

end TreeLemmas

/-- Claim C1, counterexample: the claim says an absent `high` threshold is
unbounded and never yields the warning or critical tier for any value,
but the code substitutes `sys.maxsize`, so the value `2 ^ 63` (≥ 0.8 of
the sentinel) is displayed in the critical tier. -/
theorem C1_counterexample :
    get_colored_temp (some ((2 : ℚ) ^ 63)) none = Tier.critical := by
  have h : ((2 : ℚ) ^ 63) ≥ ((2 : ℚ) ^ 63 - 1) * (8 / 10) := by norm_num
  simp only [get_colored_temp]
  rw [if_pos h]

/-- Claim C1, amended: absent value yields no display; an absent `high`
is replaced by the sentinel `sys.maxsize = 2 ^ 63 - 1` (so only values
below 0.6 of the sentinel stay normal, rather than every value);
otherwise `value ≥ high * 0.8` is the critical tier, `value ≥ high * 0.6`
the warning tier, else the normal tier — stated multiplication-free
as `5·value` against `4·high` / `3·high`.  The spec's two scenario rows
(45/90 normal, 80/90 critical) close the statement. -/
theorem C1_amended : ∀ t h : ℚ,
    get_colored_temp none (some h) = Tier.noDisplay ∧
    get_colored_temp none none = Tier.noDisplay ∧
    get_colored_temp (some t) none = get_colored_temp (some t) (some ((2 : ℚ) ^ 63 - 1)) ∧
    (get_colored_temp (some t) (some h) = Tier.critical ↔ 5 * t ≥ 4 * h) ∧
    (get_colored_temp (some t) (some h) = Tier.warning ↔ 5 * t < 4 * h ∧ 5 * t ≥ 3 * h) ∧
    (get_colored_temp (some t) (some h) = Tier.normal ↔ 5 * t < 4 * h ∧ 5 * t < 3 * h) ∧
    get_colored_temp (some 80) (some 90) = Tier.critical ∧
    get_colored_temp (some 45) (some 90) = Tier.normal := by
  intro t h
  have e80 : ((80 : ℚ)) ≥ 90 * (8 / 10) := by norm_num
  have e45c : ¬ ((45 : ℚ) ≥ 90 * (8 / 10)) := by norm_num
  have e45w : ¬ ((45 : ℚ) ≥ 90 * (6 / 10)) := by norm_num
  refine ⟨rfl, rfl, rfl, ?_, ?_, ?_, ?_, ?_⟩
  · simp only [get_colored_temp]
    by_cases hc : t ≥ h * (8 / 10)
    · rw [if_pos hc]
      constructor
      · intro _; linarith
      · intro _; rfl
    · rw [if_neg hc]
      constructor
      · intro hw
        by_cases hw2 : t ≥ h * (6 / 10)
        · rw [if_pos hw2] at hw; cases hw
        · rw [if_neg hw2] at hw; cases hw
      · intro hk; exact absurd (by linarith : t ≥ h * (8 / 10)) hc
  · simp only [get_colored_temp]
    by_cases hc : t ≥ h * (8 / 10)
    · rw [if_pos hc]
      constructor
      · intro hw; cases hw
      · intro hk; linarith [hk.1]
    · rw [if_neg hc]
      by_cases hw2 : t ≥ h * (6 / 10)
      · rw [if_pos hw2]
        exact ⟨fun _ => ⟨by linarith, by linarith⟩, fun _ => rfl⟩
      · rw [if_neg hw2]
        exact ⟨fun hk => Tier.noConfusion hk, fun hk => absurd (by linarith [hk.2] : t ≥ h * (6 / 10)) hw2⟩
  · simp only [get_colored_temp]
    by_cases hc : t ≥ h * (8 / 10)
    · rw [if_pos hc]
      exact ⟨fun hk => Tier.noConfusion hk, fun hk => absurd (by linarith [hk.1] : ¬ t ≥ h * (8 / 10)) (by simpa using hc)⟩
    · rw [if_neg hc]
      by_cases hw2 : t ≥ h * (6 / 10)
      · rw [if_pos hw2]
        exact ⟨fun hk => Tier.noConfusion hk, fun hk => absurd (by linarith [hk.2] : ¬ t ≥ h * (6 / 10)) (by simpa using hw2)⟩
      · rw [if_neg hw2]
        exact ⟨fun _ => ⟨by linarith, by linarith⟩, fun _ => rfl⟩
  · simp only [get_colored_temp]
    rw [if_pos e80]
  · simp only [get_colored_temp]
    rw [if_neg e45c, if_neg e45w]

/-- Claim C8, counterexample: the claim says absent voltage bounds are
unbounded, making every value normal; the code substitutes
`-sys.maxsize - 1` and `sys.maxsize`, so the value `-(2 ^ 64)` falls
below the lower sentinel and is displayed in the warning tier. -/
theorem C8_counterexample :
    get_colored_voltage (some (-((2 : ℚ) ^ 64))) none none = Tier.warning := by
  have h : (-((2 : ℚ) ^ 64)) < -((2 : ℚ) ^ 63) := by norm_num
  simp only [get_colored_voltage]
  rw [if_pos h]

/-- Claim C8, amended: absent value yields no display; an absent `min` is
replaced by `-sys.maxsize - 1 = -(2 ^ 63)` and an absent `max` by
`sys.maxsize = 2 ^ 63 - 1` (so a value with no bounds is normal exactly
when it lies between the two sentinels, rather than regardless of
magnitude); below `min` is the warning tier, above `max` the critical
tier, else normal.  The spec's 3.3 V no-bounds scenario closes the
statement. -/
theorem C8_amended : ∀ v a b : ℚ,
    get_colored_voltage none (some a) (some b) = Tier.noDisplay ∧
    get_colored_voltage none none none = Tier.noDisplay ∧
    get_colored_voltage (some v) none none =
      get_colored_voltage (some v) (some (-((2 : ℚ) ^ 63))) (some ((2 : ℚ) ^ 63 - 1)) ∧
    (get_colored_voltage (some v) (some a) (some b) = Tier.warning ↔ v < a) ∧
    (get_colored_voltage (some v) (some a) (some b) = Tier.critical ↔ a ≤ v ∧ b < v) ∧
    (get_colored_voltage (some v) (some a) (some b) = Tier.normal ↔ a ≤ v ∧ v ≤ b) ∧
    (get_colored_voltage (some v) none none = Tier.normal ↔
      -((2 : ℚ) ^ 63) ≤ v ∧ v ≤ (2 : ℚ) ^ 63 - 1) ∧
    get_colored_voltage (some (33 / 10)) none none = Tier.normal := by
  intro v a b
  have key : ∀ lo hi : ℚ,
      (get_colored_voltage (some v) (some lo) (some hi) = Tier.warning ↔ v < lo) ∧
      (get_colored_voltage (some v) (some lo) (some hi) = Tier.critical ↔ lo ≤ v ∧ hi < v) ∧
      (get_colored_voltage (some v) (some lo) (some hi) = Tier.normal ↔ lo ≤ v ∧ v ≤ hi) := by
    intro lo hi
    simp only [get_colored_voltage]
    by_cases h1 : v < lo
    · rw [if_pos h1]
      refine ⟨⟨fun _ => h1, fun _ => rfl⟩, ?_, ?_⟩
      · exact ⟨fun hk => Tier.noConfusion hk, fun hk => absurd h1 (by linarith [hk.1])⟩
      · exact ⟨fun hk => Tier.noConfusion hk, fun hk => absurd h1 (by linarith [hk.1])⟩
    · rw [if_neg h1]
      by_cases h2 : v > hi
      · rw [if_pos h2]
        refine ⟨⟨fun hk => Tier.noConfusion hk, fun hk => absurd hk h1⟩, ?_, ?_⟩
        · exact ⟨fun _ => ⟨by linarith, h2⟩, fun _ => rfl⟩
        · exact ⟨fun hk => Tier.noConfusion hk, fun hk => absurd h2 (by linarith [hk.2])⟩
      · rw [if_neg h2]
        refine ⟨⟨fun hk => Tier.noConfusion hk, fun hk => absurd hk h1⟩, ?_, ?_⟩
        · exact ⟨fun hk => Tier.noConfusion hk, fun hk => absurd hk.2 h2⟩
        · exact ⟨fun _ => ⟨by linarith, by linarith⟩, fun _ => rfl⟩
  have hnn : get_colored_voltage (some v) none none =
      get_colored_voltage (some v) (some (-((2 : ℚ) ^ 63))) (some ((2 : ℚ) ^ 63 - 1)) := rfl
  refine ⟨rfl, rfl, hnn, (key a b).1, (key a b).2.1, (key a b).2.2, ?_, ?_⟩
  · rw [hnn, (key (-((2 : ℚ) ^ 63)) ((2 : ℚ) ^ 63 - 1)).2.2]
  · have h1 : ¬ ((33 / 10 : ℚ) < -((2 : ℚ) ^ 63)) := by norm_num
    have h2 : ¬ ((33 / 10 : ℚ) > (2 : ℚ) ^ 63 - 1) := by norm_num
    simp only [get_colored_voltage]
    rw [if_neg h1, if_neg h2]

/-- Claim C3, counterexample: the claim's ordered rule list places NVMe
chips third, before ACPI thermal zones; but in `pylmsensonrs/sm.py` the
rule table has no NVMe rule at all, so an NVMe chip gets the no-match
sentinel `2 ^ 63 - 2` and ranks after `acpitz-` chips (rank 3) instead of
before them (`src/sensors-monitor.py` does rank it 3). -/
theorem C3_counterexample :
    SM.get_chip_order "nvme-pci-0400" = 2 ^ 63 - 2 ∧
    SM.get_chip_order "acpitz-0" = 3 ∧
    Script.get_chip_order "nvme-pci-0400" = 3 := by
  refine ⟨?_, ?_, ?_⟩ <;> decide

/-- Claim C3, amended: the rank is that of the first matching prefix rule
in the ordered table, which in `src/sensors-monitor.py` is
coretemp- (1), drivetemp- (2), nvme- (3), acpitz- (4) but in
`pylmsensonrs/sm.py` is only coretemp- (1), drivetemp- (2), acpitz- (3)
with no NVMe rule (NVMe chips fall to the sentinel); in both files a chip
matching no rule gets the fixed sentinel `sys.maxsize - 1 = 2 ^ 63 - 2`,
which is strictly below the maximum representable rank `2 ^ 63 - 1` and
strictly above every rule's rank. -/
theorem C3_amended : ∀ chip : String,
    (SM.get_chip_order chip =
      if strStarts "coretemp-" chip then 1
      else if strStarts "drivetemp-" chip then 2
      else if strStarts "acpitz-" chip then 3
      else 2 ^ 63 - 2) ∧
    (Script.get_chip_order chip =
      if strStarts "coretemp-" chip then 1
      else if strStarts "drivetemp-" chip then 2
      else if strStarts "nvme-" chip then 3
      else if strStarts "acpitz-" chip then 4
      else 2 ^ 63 - 2) ∧
    (SM.chip_sort_order.all fun pr => decide (pr.2 < 2 ^ 63 - 2)) = true ∧
    (Script.chip_sort_order.all fun pr => decide (pr.2 < 2 ^ 63 - 2)) = true ∧
    (2 ^ 63 - 2 : ℕ) < 2 ^ 63 - 1 := by
  intro chip
  refine ⟨?_, ?_, by decide, by decide, by norm_num⟩
  · simp [SM.get_chip_order, firstMatchRank, SM.chip_sort_order]
  · simp [Script.get_chip_order, firstMatchRank, Script.chip_sort_order]

/-- Claim C6, counterexample: the configuration key the code reads is
spelled `hidden_sensoers`, not `hidden_sensors`, so a section configuring
`hidden_sensors = "fan1"` hides nothing in either file; and with
`hidden_sensoers = ""` the Python split yields `[""]`, so the empty
sensor id counts as hidden — the claim says an empty list value must hide
nothing. -/
theorem C6_counterexample :
    SM.is_sensoer_visible [("chip0", [("hidden_sensors", "fan1")])] "chip0" "fan1" = true ∧
    Script.is_sensoer_visible [("chip0", [("hidden_sensors", "fan1")])] "chip0" "fan1" = true ∧
    SM.is_sensoer_visible [("chip0", [("hidden_sensoers", "")])] "chip0" "" = false ∧
    Script.is_sensoer_visible [("chip0", [("hidden_sensoers", "")])] "chip0" "" = false := by
  refine ⟨?_, ?_, ?_, ?_⟩ <;> decide

/-- Claim C6, amended: sensor visibility is false iff the sensor id
occurs in the comma-split of the chip section's `hidden_sensoers` value
(note the spelling) — in `sm.py` an absent value defaults to the empty
string before splitting, while the script skips the check when the key is
absent.  Because Python's split of the empty string is `[""]`, an empty
configured value hides exactly the empty sensor id; every nonempty sensor
id stays visible under an empty (or, for `sm.py`, absent) value.  Hiding
`"fan1,fan2"` hides exactly those two ids, leaving a sibling `fan3`
visible, in both files. -/
theorem C6_amended (cfg : Config) (chip sid : String) :
    (SM.is_sensoer_visible cfg chip sid = false ↔
      sid ∈ pySplitStr (getConfigStr cfg chip "hidden_sensoers" "")) ∧
    (Script.is_sensoer_visible cfg chip sid = false ↔
      ∃ v, lookupKey cfg chip "hidden_sensoers" = some v ∧ sid ∈ pySplitStr v) ∧
    (sid ≠ "" → getConfigStr cfg chip "hidden_sensoers" "" = "" →
      SM.is_sensoer_visible cfg chip sid = true) ∧
    (SM.is_sensoer_visible [("c", [("hidden_sensoers", "fan1,fan2")])] "c" "fan1" = false ∧
     SM.is_sensoer_visible [("c", [("hidden_sensoers", "fan1,fan2")])] "c" "fan2" = false ∧
     SM.is_sensoer_visible [("c", [("hidden_sensoers", "fan1,fan2")])] "c" "fan3" = true ∧
     Script.is_sensoer_visible [("c", [("hidden_sensoers", "fan1,fan2")])] "c" "fan1" = false ∧
     Script.is_sensoer_visible [("c", [("hidden_sensoers", "fan1,fan2")])] "c" "fan2" = false ∧
     Script.is_sensoer_visible [("c", [("hidden_sensoers", "fan1,fan2")])] "c" "fan3" = true) := by
  refine ⟨?_, ?_, ?_, by decide, by decide, by decide, by decide, by decide, by decide⟩
  · unfold SM.is_sensoer_visible
    by_cases h : sid ∈ pySplitStr (getConfigStr cfg chip "hidden_sensoers" "") <;>
      simp [h]
  · unfold Script.is_sensoer_visible
    cases hk : lookupKey cfg chip "hidden_sensoers" with
    | none => simp
    | some v =>
      by_cases h : sid ∈ pySplitStr v <;> simp [h]
  · intro hs he
    unfold SM.is_sensoer_visible
    rw [he]
    have hsplit : pySplitStr "" = [""] := rfl
    have : sid ∉ pySplitStr "" := by
      rw [hsplit]
      simpa using hs
    simp [this]

/-- Claim C6, witness for the amended theorem: a sensor id not listed
anywhere is visible under the empty configuration. -/
theorem C6_witness : SM.is_sensoer_visible [] "c" "fan9" = true :=
  (C6_amended [] "c" "fan9").2.2.1 (by decide) rfl

/-- Claim C7, counterexample: the claim says a stored value that does not
parse as the expected kind yields the default rather than an error, but
`config[section].getint(key)` raises `ValueError` on the stored string
`"abc"`, which propagates out of `get_config_value`. -/
theorem C7_counterexample :
    get_config_value [("s", [("k", "abc")])] "s" "k" VType.int (some (PyVal.i 7)) =
      .error () := by
  decide

/-- Claim C7, amended: the resolver returns the configured value when the
(nonempty) section and key exist and the stored value parses as the
expected kind; it returns the caller-supplied default when the section or
key is missing or empty, when the expected kind is not one of
str/int/float/bool, and for every lookup against an absent configuration
source; but when the stored value exists and fails to parse as the
expected int/float/bool kind, the typed getter raises and the error
propagates instead of the default being returned. -/
theorem C7_amended (cfg : Config) (sec key : String) (t : VType) (dflt : Option PyVal) :
    (lookupKey cfg sec key = none → get_config_value cfg sec key t dflt = .ok dflt) ∧
    (sec = "" ∨ key = "" → get_config_value cfg sec key t dflt = .ok dflt) ∧
    get_config_value (load_config none) sec key t dflt = .ok dflt ∧
    (∀ v, lookupKey cfg sec key = some v → sec ≠ "" → key ≠ "" →
      get_config_value cfg sec key VType.str dflt = .ok (some (.s v)) ∧
      get_config_value cfg sec key VType.int dflt =
        (match pyParseInt v with
          | some n => .ok (some (.i n))
          | none => .error ()) ∧
      get_config_value cfg sec key VType.float dflt =
        (match pyParseFloat v with
          | some q => .ok (some (.f q))
          | none => .error ()) ∧
      get_config_value cfg sec key VType.bool dflt =
        (match pyParseBool v with
          | some b => .ok (some (.b b))
          | none => .error ()) ∧
      get_config_value cfg sec key VType.other dflt = .ok dflt) := by
  refine ⟨?_, ?_, ?_, ?_⟩
  · intro h
    unfold get_config_value
    rw [h]
    split <;> rfl
  · intro h
    unfold get_config_value
    rcases h with h | h <;> rw [if_neg (by simp [h])]
  · have h : lookupKey (load_config none) sec key = none := by
      simp [load_config, lookupKey, List.lookup]
    unfold get_config_value
    rw [h]
    split <;> rfl
  · intro v hv hs hk
    refine ⟨?_, ?_, ?_, ?_, ?_⟩ <;>
      (unfold get_config_value
       rw [if_pos ⟨hs, hk⟩, hv])

/-- Claim C7, witness for the amended theorem: a stored `"yes"` read as a
boolean parses to `True` and is returned. -/
theorem C7_witness :
    get_config_value [("s", [("k", "yes")])] "s" "k" VType.bool none =
      .ok (some (PyVal.b true)) := by
  have h := ((C7_amended [("s", [("k", "yes")])] "s" "k" VType.bool none).2.2.2
    "yes" rfl (by decide) (by decide)).2.2.2.1
  rw [h]
  decide

theorem classifyGroup_route_split (I : Impl) (cfg : Config) (chip gid : String)
    (adapter : Option String) (fields : List (String × ℚ))
    (hasTemp : (fields.any fun p => strStarts "temp" p.1 && strEnds "_input" p.1) = true) :
    (I.route chip = true →
      (classifyGroup I cfg chip gid adapter fields).hdd_temps.isSome = true ∧
      (classifyGroup I cfg chip gid adapter fields).temps = none) ∧
    (I.route chip = false →
      (classifyGroup I cfg chip gid adapter fields).temps.isSome = true ∧
      (classifyGroup I cfg chip gid adapter fields).hdd_temps = none) := by
  rcases List.any_eq_true.mp hasTemp with ⟨p, hp, hpp⟩
  obtain ⟨hps, hpe⟩ : strStarts "temp" p.1 = true ∧ strEnds "_input" p.1 = true := by
    simpa using hpp
  constructor
  · intro hroute
    constructor
    · rw [classifyGroup_hdd_isSome]
      exact List.any_eq_true.mpr ⟨p, hp, by simp [hddRecogN, hroute, hps, hpe]⟩
    · have h0 : ((classifyGroup I cfg chip gid adapter fields).temps).isSome = false := by
        rw [classifyGroup_temps_isSome]
        simp [tempRecogN, hroute]
      cases hopt : (classifyGroup I cfg chip gid adapter fields).temps with
      | none => rfl
      | some r => rw [hopt] at h0; cases h0
  · intro hroute
    constructor
    · rw [classifyGroup_temps_isSome]
      exact List.any_eq_true.mpr ⟨p, hp, by simp [tempRecogN, hroute, hps, hpe]⟩
    · have h0 : ((classifyGroup I cfg chip gid adapter fields).hdd_temps).isSome = false := by
        rw [classifyGroup_hdd_isSome]
        simp [hddRecogN, hroute]
      cases hopt : (classifyGroup I cfg chip gid adapter fields).hdd_temps with
      | none => rfl
      | some r => rw [hopt] at h0; cases h0

/-- Claim C2, counterexample: in `src/sensors-monitor.py` the drive
routing test is `chip_id.startswith("drivetemp")` only, so the chip
`nvme-pci-0400` with field `temp1_input` yields one generic temperature
record and no drive-temperature record — the claim requires the NVMe
prefix to route to the drive category. -/
theorem C2_counterexample :
    (parse_sensors_json ScriptImpl []
        [("nvme-pci-0400", [("Composite", GroupEntry.fields [("temp1_input", 38)])])]).map
      (fun o => (o.temps.length, o.hdd_temps.length)) = .ok (1, 0) := by
  decide

/-- Claim C2, amended: a `temp*` raw field with a recognized suffix is
routed to the drive-temperature category exactly when the owning chip id
starts with `drivetemp` or `nvme` in `pylmsensonrs/sm.py`, but only when
it starts with `drivetemp` in `src/sensors-monitor.py` (an NVMe chip's
temperature fields go to the generic category there); in each case the
other temperature category receives no record from the group.  The
`drivetemp-scsi-0-0` scenario produces one drive-temperature record and
no generic record in both files. -/
theorem C2_amended (cfg : Config) (chip gid : String) (adapter : Option String)
    (fields : List (String × ℚ))
    (hasTemp : (fields.any fun p => strStarts "temp" p.1 && strEnds "_input" p.1) = true) :
    ((strStarts "drivetemp" chip || strStarts "nvme" chip) = true →
      (classifyGroup SMimpl cfg chip gid adapter fields).hdd_temps.isSome = true ∧
      (classifyGroup SMimpl cfg chip gid adapter fields).temps = none) ∧
    ((strStarts "drivetemp" chip || strStarts "nvme" chip) = false →
      (classifyGroup SMimpl cfg chip gid adapter fields).temps.isSome = true ∧
      (classifyGroup SMimpl cfg chip gid adapter fields).hdd_temps = none) ∧
    (strStarts "drivetemp" chip = true →
      (classifyGroup ScriptImpl cfg chip gid adapter fields).hdd_temps.isSome = true ∧
      (classifyGroup ScriptImpl cfg chip gid adapter fields).temps = none) ∧
    (strStarts "drivetemp" chip = false →
      (classifyGroup ScriptImpl cfg chip gid adapter fields).temps.isSome = true ∧
      (classifyGroup ScriptImpl cfg chip gid adapter fields).hdd_temps = none) ∧
    (parse_sensors_json SMimpl []
        [("drivetemp-scsi-0-0", [("temp1", GroupEntry.fields [("temp1_input", 38)])])]).map
      (fun o => (o.temps.length, o.hdd_temps.length)) = .ok (0, 1) ∧
    (parse_sensors_json ScriptImpl []
        [("drivetemp-scsi-0-0", [("temp1", GroupEntry.fields [("temp1_input", 38)])])]).map
      (fun o => (o.temps.length, o.hdd_temps.length)) = .ok (0, 1) := by
  have hSM := classifyGroup_route_split SMimpl cfg chip gid adapter fields hasTemp
  have hScr := classifyGroup_route_split ScriptImpl cfg chip gid adapter fields hasTemp
  exact ⟨hSM.1, hSM.2, hScr.1, hScr.2, by decide, by decide⟩

/-- Claim C2, witness for the amended theorem: the drive route applied to
the scenario's group. -/
theorem C2_witness :
    (classifyGroup SMimpl [] "drivetemp-scsi-0-0" "temp1" none
      [("temp1_input", 38)]).hdd_temps.isSome = true ∧
    (classifyGroup SMimpl [] "drivetemp-scsi-0-0" "temp1" none
      [("temp1_input", 38)]).temps = none :=
  (C2_amended [] "drivetemp-scsi-0-0" "temp1" none [("temp1_input", 38)]
    (by decide)).1 (by decide)

theorem adapterOf_erase_str (g1 g2 : List (String × GroupEntry)) (gid s : String)
    (hgid : gid ≠ "Adapter") :
    adapterOf (g1 ++ (gid, GroupEntry.str s) :: g2) = adapterOf (g1 ++ g2) := by
  unfold adapterOf
  congr 1
  induction g1 with
  | nil =>
    have h : ("Adapter" == gid) = false := by
      simp [Ne.symm hgid]
    simp [List.lookup, h]
  | cons a g1 ih =>
    rcases a with ⟨k, e⟩
    by_cases hk : ("Adapter" == k) = true <;> simp [List.lookup, hk, ih]

theorem chipLists_erase_str (I : Impl) (cfg : Config) (chip : String)
    (adapter : Option String) (g1 g2 : List (String × GroupEntry)) (gid s : String) :
    chipLists I cfg chip adapter (g1 ++ (gid, GroupEntry.str s) :: g2) =
      chipLists I cfg chip adapter (g1 ++ g2) := by
  have ht : (groupRecords I cfg chip adapter (gid, GroupEntry.str s)).temps = none := rfl
  have hh : (groupRecords I cfg chip adapter (gid, GroupEntry.str s)).hdd_temps = none := rfl
  have hv : (groupRecords I cfg chip adapter (gid, GroupEntry.str s)).volts = none := rfl
  have hf : (groupRecords I cfg chip adapter (gid, GroupEntry.str s)).fans = none := rfl
  unfold chipLists
  simp [List.filterMap_append, List.filterMap_cons, ht, hh, hv, hf]

/-- Claim C9: a chip entry whose value is not a mapping (such as adapter
metadata strings) is skipped by the classifier, which completes without
raising and produces the same snapshot as if the entry were absent —
stated for any entry not keyed `Adapter`, since the adapter extraction
itself (expressly excluded by the claim) reads that key.  The snapshot's
stored `raw_data` trivially remains the parse's own input, so equality is
stated on the classifier result and on the four classified sequences. -/
theorem C9_skip_non_mapping (I : Impl) (cfg : Config) (pre post : RawTree)
    (chip gid s : String) (g1 g2 : List (String × GroupEntry))
    (hgid : gid ≠ "Adapter") :
    classifyChips I cfg (pre ++ (chip, g1 ++ (gid, GroupEntry.str s) :: g2) :: post) =
      classifyChips I cfg (pre ++ (chip, g1 ++ g2) :: post) ∧
    (parse_sensors_json I cfg
        (pre ++ (chip, g1 ++ (gid, GroupEntry.str s) :: g2) :: post)).map
        (fun o => (o.temps, o.hdd_temps, o.volts, o.fans)) =
      (parse_sensors_json I cfg (pre ++ (chip, g1 ++ g2) :: post)).map
        (fun o => (o.temps, o.hdd_temps, o.volts, o.fans)) := by
  have hchip : classifyChip I cfg chip (g1 ++ (gid, GroupEntry.str s) :: g2) =
      classifyChip I cfg chip (g1 ++ g2) := by
    unfold classifyChip
    rw [adapterOf_erase_str g1 g2 gid s hgid]
    exact chipLists_erase_str I cfg chip _ g1 g2 gid s
  have hmain : classifyChips I cfg (pre ++ (chip, g1 ++ (gid, GroupEntry.str s) :: g2) :: post) =
      classifyChips I cfg (pre ++ (chip, g1 ++ g2) :: post) := by
    induction pre with
    | nil =>
      simp only [List.nil_append]
      unfold classifyChips
      rw [hchip]
    | cons c pre ih =>
      simp only [List.cons_append]
      unfold classifyChips
      rw [ih]
  refine ⟨hmain, ?_⟩
  unfold parse_sensors_json
  rw [hmain]
  cases classifyChips I cfg (pre ++ (chip, g1 ++ g2) :: post) with
  | error e => rfl
  | ok L => rfl

/-- Claim C9, witness: erasing a non-mapping `junk` entry leaves the
classifier result unchanged on a concrete tree. -/
theorem C9_witness :
    classifyChips SMimpl []
        [("chip0", [("junk", GroupEntry.str "x"),
          ("temp1", GroupEntry.fields [("temp1_input", 40)])])] =
      classifyChips SMimpl []
        [("chip0", [("temp1", GroupEntry.fields [("temp1_input", 40)])])] :=
  (C9_skip_non_mapping SMimpl [] [] [] "chip0" "junk" "x" []
    [("temp1", GroupEntry.fields [("temp1_input", 40)])] (by decide)).1

theorem nodup_fst_eq {β : Type} : ∀ {l : List (String × β)},
    (l.map Prod.fst).Nodup → ∀ {x y : String × β}, x ∈ l → y ∈ l → x.1 = y.1 → x = y := by
  intro l
  induction l with
  | nil => intro _ x y hx; cases hx
  | cons a t ih =>
    intro hnd x y hx hy hxy
    have hna : a.1 ∉ t.map Prod.fst := (List.nodup_cons.mp (by simpa using hnd)).1
    have hnt : (t.map Prod.fst).Nodup := (List.nodup_cons.mp (by simpa using hnd)).2
    rcases List.mem_cons.mp hx with hx1 | hx2
    · rcases List.mem_cons.mp hy with hy1 | hy2
      · rw [hx1, hy1]
      · exact absurd (List.mem_map.mpr ⟨y, hy2, by rw [← hxy, hx1]⟩) hna
    · rcases List.mem_cons.mp hy with hy1 | hy2
      · exact absurd (List.mem_map.mpr ⟨x, hx2, by rw [hxy, hy1]⟩) hna
      · exact ih hnt hx2 hy2 hxy

theorem recognizedName_of_temp {route : Bool} {n : String}
    (h : tempRecogN route n = true) : recognizedName route n = true := by
  simp [recognizedName, h]

theorem recognizedName_of_hdd {route : Bool} {n : String}
    (h : hddRecogN route n = true) : recognizedName route n = true := by
  simp [recognizedName, h]

theorem recognizedName_of_volt {route : Bool} {n : String}
    (h : inRecogN n = true) : recognizedName route n = true := by
  simp [recognizedName, h]

theorem recognizedName_of_fan {route : Bool} {n : String}
    (h : fanRecogN n = true) : recognizedName route n = true := by
  simp [recognizedName, h]

theorem not_mem_contributingPairs (I : Impl) (cfg : Config) (tree : RawTree)
    (chip gid : String) (cdata : List (String × GroupEntry))
    (fields : List (String × ℚ)) (recog : Bool → String → Bool)
    (hchip : (chip, cdata) ∈ tree) (hgrp : (gid, GroupEntry.fields fields) ∈ cdata)
    (hndC : (tree.map Prod.fst).Nodup)
    (hndG : ∀ c ∈ tree, (c.2.map Prod.fst).Nodup)
    (hrec : ∀ p ∈ fields, recog (I.route chip) p.1 = false) :
    (chip, gid) ∉ contributingPairs I cfg recog tree := by
  intro hmem
  unfold contributingPairs at hmem
  rcases List.mem_flatMap.mp hmem with ⟨c, hcf, hcp⟩
  rcases List.mem_map.mp hcp with ⟨g, hgf, hge⟩
  have hcin : c ∈ tree := (List.mem_filter.mp hcf).1
  have hc1 : c.1 = chip := congrArg Prod.fst hge
  have hceq : c = (chip, cdata) := nodup_fst_eq hndC hcin hchip hc1
  subst hceq
  have hgin : g ∈ cdata := (List.mem_filter.mp hgf).1
  have hg1 : g.1 = gid := congrArg Prod.snd hge
  have hgeq : g = (gid, GroupEntry.fields fields) := by
    refine nodup_fst_eq (hndG _ hcin) hgin hgrp hg1
  subst hgeq
  have hcontrib : groupContrib I cfg chip recog (gid, GroupEntry.fields fields) = true :=
    (List.mem_filter.mp hgf).2
  unfold groupContrib at hcontrib
  obtain ⟨-, hany⟩ : I.sensorVisible cfg chip gid = true ∧
      (fields.any fun p => recog (I.route chip) p.1) = true := by
    simpa using hcontrib
  rcases List.any_eq_true.mp hany with ⟨p, hpin, hpr⟩
  rw [hrec p hpin] at hpr
  cases hpr

/-- Claim C10: a visible field-group none of whose raw field names is
recognized (right prefix and a suffix the routing accepts for that
prefix and chip, e.g. a group holding only `temp1_alarm`) contributes no
record at all — its `(chip_id, sensor_id)` pair appears in none of the
four output sequences, rather than yielding an empty placeholder
record. -/
theorem C10_no_placeholder (I : Impl) (cfg : Config) (tree : RawTree)
    (chip gid : String) (cdata : List (String × GroupEntry))
    (fields : List (String × ℚ)) (out : SensorsData)
    (hchip : (chip, cdata) ∈ tree) (hgrp : (gid, GroupEntry.fields fields) ∈ cdata)
    (hndC : (tree.map Prod.fst).Nodup)
    (hndG : ∀ c ∈ tree, (c.2.map Prod.fst).Nodup)
    (hunrec : ∀ p ∈ fields, recognizedName (I.route chip) p.1 = false)
    (hok : parse_sensors_json I cfg tree = .ok out) :
    (chip, gid) ∉ out.temps.map Temp.pair ∧
    (chip, gid) ∉ out.hdd_temps.map HddTemp.pair ∧
    (chip, gid) ∉ out.volts.map Voltage.pair ∧
    (chip, gid) ∉ out.fans.map FanSpeed.pair := by
  obtain ⟨L, hL, ht, hh, hv, hf, _⟩ := parse_ok_elim I cfg tree out hok
  obtain ⟨pt, ph, pv, pf⟩ := classifyChips_pairs I cfg tree L hL
  have hrecT : ∀ p ∈ fields, tempRecogN (I.route chip) p.1 = false := by
    intro p hp
    cases hx : tempRecogN (I.route chip) p.1
    · rfl
    · have hr := recognizedName_of_temp hx
      rw [hunrec p hp] at hr
      cases hr
  have hrecH : ∀ p ∈ fields, hddRecogN (I.route chip) p.1 = false := by
    intro p hp
    cases hx : hddRecogN (I.route chip) p.1
    · rfl
    · have hr := recognizedName_of_hdd hx
      rw [hunrec p hp] at hr
      cases hr
  have hrecV : ∀ p ∈ fields, inRecogN p.1 = false := by
    intro p hp
    cases hx : inRecogN p.1
    · rfl
    · have hr := @recognizedName_of_volt (I.route chip) _ hx
      rw [hunrec p hp] at hr
      cases hr
  have hrecF : ∀ p ∈ fields, fanRecogN p.1 = false := by
    intro p hp
    cases hx : fanRecogN p.1
    · rfl
    · have hr := @recognizedName_of_fan (I.route chip) _ hx
      rw [hunrec p hp] at hr
      cases hr
  refine ⟨?_, ?_, ?_, ?_⟩
  · intro hmem
    rw [ht] at hmem
    have : (chip, gid) ∈ L.temps.map Temp.pair :=
      ((sortByKey_perm Temp.chip_order L.temps).map Temp.pair).mem_iff.mp hmem
    rw [pt] at this
    exact not_mem_contributingPairs I cfg tree chip gid cdata fields tempRecogN
      hchip hgrp hndC hndG hrecT this
  · intro hmem
    rw [hh] at hmem
    have : (chip, gid) ∈ L.hdd_temps.map HddTemp.pair :=
      ((sortByKey_perm HddTemp.chip_order L.hdd_temps).map HddTemp.pair).mem_iff.mp hmem
    rw [ph] at this
    exact not_mem_contributingPairs I cfg tree chip gid cdata fields hddRecogN
      hchip hgrp hndC hndG hrecH this
  · intro hmem
    rw [hv] at hmem
    have : (chip, gid) ∈ L.volts.map Voltage.pair :=
      ((sortByKey_perm Voltage.chip_order L.volts).map Voltage.pair).mem_iff.mp hmem
    rw [pv] at this
    exact not_mem_contributingPairs I cfg tree chip gid cdata fields (fun _ => inRecogN)
      hchip hgrp hndC hndG (fun p hp => hrecV p hp) this
  · intro hmem
    rw [hf] at hmem
    have : (chip, gid) ∈ L.fans.map FanSpeed.pair :=
      ((sortByKey_perm FanSpeed.chip_order L.fans).map FanSpeed.pair).mem_iff.mp hmem
    rw [pf] at this
    exact not_mem_contributingPairs I cfg tree chip gid cdata fields (fun _ => fanRecogN)
      hchip hgrp hndC hndG (fun p hp => hrecF p hp) this

/-- Claim C10, witness: a group holding only `temp1_alarm` leaves every
sequence of the snapshot empty. -/
theorem C10_witness :
    ("chipX", "temp1") ∉
      (SensorsData.mk [] [] [] []
        [("chipX", [("temp1", GroupEntry.fields [("temp1_alarm", 1)])])]).temps.map
        Temp.pair :=
  (C10_no_placeholder SMimpl []
    [("chipX", [("temp1", GroupEntry.fields [("temp1_alarm", 1)])])]
    "chipX" "temp1" [("temp1", GroupEntry.fields [("temp1_alarm", 1)])]
    [("temp1_alarm", 1)]
    (SensorsData.mk [] [] [] []
      [("chipX", [("temp1", GroupEntry.fields [("temp1_alarm", 1)])])])
    (by decide) (by decide) (by decide) (by decide) (by decide) (by decide)).1

/-- Claim C4: for every raw tree whose chip keys and per-chip group keys
are duplicate-free (dict semantics of the JSON source), each category of
the snapshot holds pairwise-distinct `(chip_id, sensor_id)` identities —
at most one record per pair — and its record count equals the number of
distinct visible pairs contributing at least one recognized field to that
category. -/
theorem C4_unique_and_counts (I : Impl) (cfg : Config) (tree : RawTree)
    (out : SensorsData)
    (hndC : (tree.map Prod.fst).Nodup)
    (hndG : ∀ c ∈ tree, (c.2.map Prod.fst).Nodup)
    (hok : parse_sensors_json I cfg tree = .ok out) :
    ((out.temps.map Temp.pair).Nodup ∧
      out.temps.length = (contributingPairs I cfg tempRecogN tree).length) ∧
    ((out.hdd_temps.map HddTemp.pair).Nodup ∧
      out.hdd_temps.length = (contributingPairs I cfg hddRecogN tree).length) ∧
    ((out.volts.map Voltage.pair).Nodup ∧
      out.volts.length = (contributingPairs I cfg (fun _ => inRecogN) tree).length) ∧
    ((out.fans.map FanSpeed.pair).Nodup ∧
      out.fans.length = (contributingPairs I cfg (fun _ => fanRecogN) tree).length) := by
  obtain ⟨L, hL, ht, hh, hv, hf, -⟩ := parse_ok_elim I cfg tree out hok
  obtain ⟨pt, ph, pv, pf⟩ := classifyChips_pairs I cfg tree L hL
  refine ⟨⟨?_, ?_⟩, ⟨?_, ?_⟩, ⟨?_, ?_⟩, ⟨?_, ?_⟩⟩
  · rw [ht, ((sortByKey_perm Temp.chip_order L.temps).map Temp.pair).nodup_iff, pt]
    exact contributingPairs_nodup I cfg tempRecogN tree hndC hndG
  · rw [ht, sortByKey_length]
    simpa using congrArg List.length pt
  · rw [hh, ((sortByKey_perm HddTemp.chip_order L.hdd_temps).map HddTemp.pair).nodup_iff, ph]
    exact contributingPairs_nodup I cfg hddRecogN tree hndC hndG
  · rw [hh, sortByKey_length]
    simpa using congrArg List.length ph
  · rw [hv, ((sortByKey_perm Voltage.chip_order L.volts).map Voltage.pair).nodup_iff, pv]
    exact contributingPairs_nodup I cfg (fun _ => inRecogN) tree hndC hndG
  · rw [hv, sortByKey_length]
    simpa using congrArg List.length pv
  · rw [hf, ((sortByKey_perm FanSpeed.chip_order L.fans).map FanSpeed.pair).nodup_iff, pf]
    exact contributingPairs_nodup I cfg (fun _ => fanRecogN) tree hndC hndG
  · rw [hf, sortByKey_length]
    simpa using congrArg List.length pf

/-- Raw tree of the spec's merge scenario (`temp1_input` and `temp1_max`
in one field-group). -/
def c4tree : RawTree :=
  [("coretemp-isa-0000",
    [("Core 0", GroupEntry.fields [("temp1_input", 45), ("temp1_max", 90)])])]

/-- The snapshot the classifier produces on `c4tree` under the empty
configuration: one merged record. -/
def c4out : SensorsData :=
  { volts := []
    temps := [⟨"coretemp-isa-0000", "Core 0", none, "coretemp-isa-0000", "Core 0", 1,
      some 45, some 90, none⟩]
    hdd_temps := []
    fans := []
    raw_data := c4tree }

/-- Claim C4, witness: the merge scenario yields exactly one record for
the single contributing pair. -/
theorem C4_witness :
    (c4out.temps.map Temp.pair).Nodup ∧
      c4out.temps.length = (contributingPairs SMimpl [] tempRecogN c4tree).length :=
  (C4_unique_and_counts SMimpl [] c4tree c4out (by decide) (by decide) (by decide)).1

/-- Claim C5: each of the four output sequences of a snapshot is sorted
by `chip_order` ascending, and the sort is stable — for every rank the
records of that rank appear in exactly their discovery order (the
classifier's output order, which follows the raw tree).  The embedding is
a pure function of the raw tree and the configuration, so the result is
identical across repeated runs on the same input. -/
theorem C5_sorted_stable (I : Impl) (cfg : Config) (tree : RawTree) (L : Lists4)
    (out : SensorsData)
    (hcl : classifyChips I cfg tree = .ok L)
    (hok : parse_sensors_json I cfg tree = .ok out) :
    ((out.temps.Pairwise fun a b => a.chip_order ≤ b.chip_order) ∧
      ∀ r : ℕ, out.temps.filter (fun t => t.chip_order == r) =
        L.temps.filter (fun t => t.chip_order == r)) ∧
    ((out.hdd_temps.Pairwise fun a b => a.chip_order ≤ b.chip_order) ∧
      ∀ r : ℕ, out.hdd_temps.filter (fun t => t.chip_order == r) =
        L.hdd_temps.filter (fun t => t.chip_order == r)) ∧
    ((out.volts.Pairwise fun a b => a.chip_order ≤ b.chip_order) ∧
      ∀ r : ℕ, out.volts.filter (fun t => t.chip_order == r) =
        L.volts.filter (fun t => t.chip_order == r)) ∧
    ((out.fans.Pairwise fun a b => a.chip_order ≤ b.chip_order) ∧
      ∀ r : ℕ, out.fans.filter (fun t => t.chip_order == r) =
        L.fans.filter (fun t => t.chip_order == r)) := by
  obtain ⟨L', hL', ht, hh, hv, hf, -⟩ := parse_ok_elim I cfg tree out hok
  rw [hcl] at hL'
  injection hL' with hLL
  subst hLL
  refine ⟨⟨?_, ?_⟩, ⟨?_, ?_⟩, ⟨?_, ?_⟩, ⟨?_, ?_⟩⟩
  · rw [ht]; exact sortByKey_pairwise _ _
  · intro r; rw [ht]; exact filter_sortByKey _ _ r
  · rw [hh]; exact sortByKey_pairwise _ _
  · intro r; rw [hh]; exact filter_sortByKey _ _ r
  · rw [hv]; exact sortByKey_pairwise _ _
  · intro r; rw [hv]; exact filter_sortByKey _ _ r
  · rw [hf]; exact sortByKey_pairwise _ _
  · intro r; rw [hf]; exact filter_sortByKey _ _ r

/-- A raw tree whose discovery order (`acpitz-` chip first) differs from
its rank order (`coretemp-` ranks first). -/
def c5tree : RawTree :=
  [("acpitz-0", [("temp1", GroupEntry.fields [("temp1_input", 50)])]),
   ("coretemp-isa-0000", [("Core 0", GroupEntry.fields [("temp1_input", 45)])])]

/-- The `acpitz-0` record of `c5tree` (rank 3, discovered first). -/
def c5A : Temp :=
  ⟨"acpitz-0", "temp1", none, "acpitz-0", "temp1", 3, some 50, none, none⟩

/-- The `coretemp-isa-0000` record of `c5tree` (rank 1, discovered
second). -/
def c5B : Temp :=
  ⟨"coretemp-isa-0000", "Core 0", none, "coretemp-isa-0000", "Core 0", 1,
    some 45, none, none⟩

/-- The classifier output on `c5tree` (discovery order). -/
def c5L : Lists4 := ⟨[c5A, c5B], [], [], []⟩

/-- The snapshot on `c5tree`: sorted by rank. -/
def c5out : SensorsData :=
  { volts := [], temps := [c5B, c5A], hdd_temps := [], fans := [], raw_data := c5tree }

/-- Claim C5, witness: on `c5tree` the snapshot is rank-sorted and the
rank-3 records keep discovery order. -/
theorem C5_witness :
    (c5out.temps.Pairwise fun a b => a.chip_order ≤ b.chip_order) ∧
    c5out.temps.filter (fun t => t.chip_order == 3) =
      c5L.temps.filter (fun t => t.chip_order == 3) := by
  have h := C5_sorted_stable SMimpl [] c5tree c5L c5out (by decide) (by decide)
  exact ⟨h.1.1, h.1.2 3⟩

end SensorsMonitor